import Mathlib

/-!
# Flowify: the message-response pipeline

A shallow embedding of the response resolver (`lib/facebookManager.js`), the
provider dispatch it calls (`lib/aiProviders.js`) and the webhook endpoint
(`server.js`), with the properties of the specification stated over it.

Modelling conventions
* A JavaScript string is a Lean `String`.  `trim` removes the ECMAScript white
  space and line terminator characters from both ends.
* `String.prototype.toLowerCase` belongs to the JavaScript runtime, not to the
  repository.  The rule lookup and the keyword scan take it as an argument
  (`findPredefinedResponseWith`, `keywordScanWith`), and what is proved of
  them holds for every lower-casing function.  `toLowerCase` is the
  lower-casing of the letters `A`-`Z`, which agrees with the runtime on
  unaccented text; it is the instance that the examples are evaluated with.
* A value coming out of `JSON.parse` or out of the request body is a `JSVal`.
* Every call that leaves the process (database, Graph API, AI provider) takes
  its outcome from an explicit scenario record, and every such call is
  recorded, in order, in a list of `Effect`s.
* A JavaScript exception is an `Except String _` carrying `error.message`.
-/

set_option autoImplicit false

/-! ## JavaScript strings -/

/-- ECMAScript `WhiteSpace` and `LineTerminator` code points, the characters
that `String.prototype.trim` strips. -/
def isWhiteSpace (c : Char) : Bool :=
  let n := c.toNat
  n = 0x09 || n = 0x0A || n = 0x0B || n = 0x0C || n = 0x0D || n = 0x20 ||
  n = 0xA0 || n = 0x1680 || (0x2000 ≤ n && n ≤ 0x200A) ||
  n = 0x2028 || n = 0x2029 || n = 0x202F || n = 0x205F || n = 0x3000 || n = 0xFEFF

/-- The lower-casing of the letters `A`-`Z`: what `String.prototype.toLowerCase`
does on unaccented text. -/
def toLowerCase (s : String) : String :=
  ⟨s.data.map Char.toLower⟩

/-- Model of `String.prototype.trim`. -/
def trim (s : String) : String :=
  ⟨((s.data.dropWhile isWhiteSpace).reverse.dropWhile isWhiteSpace).reverse⟩

/-- Model of `String.prototype.startsWith`. -/
def startsWith (s k : String) : Bool :=
  k.data.isPrefixOf s.data

/-- Model of `String.prototype.endsWith`. -/
def endsWith (s k : String) : Bool :=
  k.data.isSuffixOf s.data

/-- Substring search behind `String.prototype.includes`: try every start
position from the left. -/
def includesFrom : List Char → List Char → Bool
  | [], k => k.isPrefixOf []
  | c :: cs, k => k.isPrefixOf (c :: cs) || includesFrom cs k

/-- Model of `String.prototype.includes`. -/
def includes (s k : String) : Bool :=
  includesFrom s.data k.data

/-- MySQL `LENGTH(col)` on a utf8mb4 column: the length in bytes. -/
def sqlLength (s : String) : Nat :=
  s.utf8ByteSize

/-! ## JavaScript values -/

/-- A value produced by `JSON.parse` (plus `undefined`, the result of reading
a property that is not there). -/
inductive JSVal where
  | undefined
  | null
  | bool (b : Bool)
  | num (n : Int)
  | str (s : String)
  | arr (items : List JSVal)
  | obj (fields : List (String × JSVal))

namespace JSVal

/-- Test `v === undefined || v === null`. -/
def isNullish : JSVal → Bool
  | undefined => true
  | null => true
  | _ => false

/-- JavaScript truthiness (`!!v`). -/
def truthy : JSVal → Bool
  | undefined => false
  | null => false
  | bool b => b
  | num n => n != 0
  | str s => s != ""
  | arr _ => true
  | obj _ => true

/-- Property read `v.key` for the data properties the pipeline reads
(`entry`, `id`, `messaging`, `sender`, `message`, `text`, `mid`): a `TypeError`
on `undefined` and `null`, the stored value on an object that has the key,
`undefined` otherwise. -/
def getProp (v : JSVal) (key : String) : Except String JSVal :=
  match v with
  | undefined => .error ("Cannot read properties of undefined (reading " ++ key ++ ")")
  | null => .error ("Cannot read properties of null (reading " ++ key ++ ")")
  | obj fields => .ok ((fields.lookup key).getD undefined)
  | _ => .ok undefined

/-- Optional chaining `v?.key`. -/
def getPropOpt (v : JSVal) (key : String) : JSVal :=
  match v with
  | obj fields => (fields.lookup key).getD undefined
  | _ => undefined

/-- The values a `for (const x of v)` loop visits: the items of an array, the
characters of a string, a `TypeError` for anything else. -/
def iterate : JSVal → Except String (List JSVal)
  | arr items => .ok items
  | str s => .ok (s.data.map (fun c => str (String.singleton c)))
  | _ => .error "value is not iterable"

end JSVal

/-! ## Data model (the tables of `setup/setup.js`) -/

/-- A row of `predefined_responses` as returned by the resolver's query, which
already filters on `user_id`, `page_id` and `is_active = true`. -/
structure Rule where
  id : Nat
  keyword : String
  response : String
  priority : Int
  /-- Column of type ENUM(contains, exact, starts_with, ends_with), nullable. -/
  match_type : Option String
  case_sensitive : Bool
  deriving DecidableEq, Repr

namespace FacebookManager

/-- The `keyword` constant of the loop body (lines 129-130).  The first
argument stands for `String.prototype.toLowerCase`, a function of the
JavaScript runtime. -/
def ruleKeywordWith (lower : String → String) (response : Rule) : String :=
  if response.case_sensitive then response.keyword else lower response.keyword

/-- The `switch (response.match_type)` of the loop body (lines 132-148): the
value of `match` for one rule. -/
def ruleMatchesWith (lower : String → String) (normalizedMessage : String)
    (response : Rule) : Bool :=
  let keyword := ruleKeywordWith lower response
  if response.match_type = some "exact" then
    normalizedMessage == keyword
  else if response.match_type = some "starts_with" then
    startsWith normalizedMessage keyword
  else if response.match_type = some "ends_with" then
    endsWith normalizedMessage keyword
  else
    includes normalizedMessage keyword

/-- The `for (const response of responses)` loop (lines 128-155): the first
rule whose `match` is true, `null` when the loop runs out. -/
def scanResponsesWith (lower : String → String) (normalizedMessage : String) :
    List Rule → Option Rule
  | [] => none
  | response :: rest =>
    if ruleMatchesWith lower normalizedMessage response then some response
    else scanResponsesWith lower normalizedMessage rest

/-- Model of `findPredefinedResponse(userId, pageId, messageText)` (lines
118-160), for any lower-casing function of the runtime.  `rows` is the
outcome of the `SELECT ... ORDER BY priority DESC, LENGTH(keyword) DESC`
query.  A failed query and a `messageText` without a `toLowerCase` method both
end in the `catch`, which returns `null`. -/
def findPredefinedResponseWith (lower : String → String)
    (rows : Except String (List Rule)) (messageText : JSVal) : Option Rule :=
  match rows with
  | .error _ => none
  | .ok responses =>
    match messageText with
    | .str text => scanResponsesWith lower (trim (lower text)) responses
    | _ => none

/-- The `keyword` constant of the loop body (lines 129-130), with the
lower-casing of the letters `A`-`Z`. -/
def ruleKeyword (response : Rule) : String :=
  ruleKeywordWith toLowerCase response

/-- The value of `match` for one rule (lines 132-148), with the lower-casing
of the letters `A`-`Z`. -/
def ruleMatches (normalizedMessage : String) (response : Rule) : Bool :=
  ruleMatchesWith toLowerCase normalizedMessage response

/-- The loop of lines 128-155, with the lower-casing of the letters
`A`-`Z`. -/
def scanResponses (normalizedMessage : String) (responses : List Rule) : Option Rule :=
  scanResponsesWith toLowerCase normalizedMessage responses

/-- Model of `findPredefinedResponse(userId, pageId, messageText)`, with the
lower-casing of the letters `A`-`Z`: the function the examples on unaccented
text are evaluated with. -/
def findPredefinedResponse (rows : Except String (List Rule)) (messageText : JSVal) :
    Option Rule :=
  findPredefinedResponseWith toLowerCase rows messageText

/-- The string `core` is the string `whole` without the white space at its
two ends: `whole` is `core` between two runs of white space characters, and
`core` neither starts nor ends with one. -/
def TrimsTo (whole core : String) : Prop :=
  ∃ pre post : List Char, whole.data = pre ++ core.data ++ post ∧
    (∀ c ∈ pre, isWhiteSpace c = true) ∧ (∀ c ∈ post, isWhiteSpace c = true) ∧
    (∀ c, core.data.head? = some c → isWhiteSpace c = false) ∧
    (∀ c, core.data.getLast? = some c → isWhiteSpace c = false)

/-- The rule matches the message: the value of `match` is true for the rule on
the lower-cased message without the white space at its two ends. -/
def RuleMatchesMessage (lower : String → String) (r : Rule) (messageText : String) : Prop :=
  ∃ core, TrimsTo (lower messageText) core ∧ ruleMatchesWith lower core r = true

/-- Rule `a` has a strictly smaller `(priority, LENGTH(keyword))` tuple than
rule `b`, in lexicographic order. -/
def rankLt (a b : Rule) : Prop :=
  a.priority < b.priority ∨
    (a.priority = b.priority ∧ sqlLength a.keyword < sqlLength b.keyword)

/-- Rule `a` may precede rule `b` under
`ORDER BY priority DESC, LENGTH(keyword) DESC`. -/
def rankGe (a b : Rule) : Prop :=
  b.priority < a.priority ∨
    (a.priority = b.priority ∧ sqlLength b.keyword ≤ sqlLength a.keyword)

instance (a b : Rule) : Decidable (rankLt a b) := by
  unfold rankLt; infer_instance

instance (a b : Rule) : Decidable (rankGe a b) := by
  unfold rankGe; infer_instance

/-- The list is in an order the resolver's query can return. -/
def FetchOrdered (responses : List Rule) : Prop :=
  responses.Pairwise rankGe

instance (responses : List Rule) : Decidable (FetchOrdered responses) := by
  unfold FetchOrdered; infer_instance

end FacebookManager

/-- A row of `facebook_pages`. -/
structure Page where
  user_id : Int
  page_id : String
  access_token : String
  deriving DecidableEq, Repr

/-- A row of `ai_configs`. -/
structure AIConfig where
  provider : String
  model : String
  api_key : String
  temperature : Option Rat
  max_tokens : Option Int
  instructions : Option String
  tone : Option String
  style : Option String
  language : Option String
  fallback_only : Bool
  deriving DecidableEq, Repr

/-- The argument of `saveMessageHistory`, one field per column of
`message_history`.  A field that is `null` or left out is `none`. -/
structure HistoryData where
  userId : Option Int
  pageId : String
  messageId : JSVal
  senderId : JSVal
  senderName : Option String
  messageText : JSVal
  responseText : Option String
  responseType : String
  matchedKeyword : Option String
  processingTime : Nat
  errorMessage : Option String

/-- A row of `webhook_events`. -/
structure QueuedEvent where
  id : Nat
  page_id : String
  event_type : String
  raw_data : String
  processed : Bool
  error_message : Option String
  retry_count : Int
  created_at : Nat
  deriving DecidableEq, Repr

/-- The calls of `FacebookManager` that leave the process, in the order they
are made. -/
inductive Effect where
  /-- The query on facebook_pages of `processIncomingMessage`. -/
  | dbSelectPage (pageId : String)
  /-- The Graph API read of `getSenderName`. -/
  | graphGetSenderName (senderId : JSVal) (accessToken : String)
  /-- The query on predefined_responses of `findPredefinedResponse`. -/
  | dbSelectRules (userId : Int) (pageId : String)
  /-- The query on ai_configs of `tryAIResponse`. -/
  | dbSelectAIConfigs (userId : Int) (pageId : String)
  /-- The call `provider.generateResponse(messageText, config)`. -/
  | providerCall (config : AIConfig) (messageText : JSVal)
  /-- The Graph API post of `sendMessage`. -/
  | sendMessage (pageId : String) (recipientId : JSVal) (messageText : String)
      (accessToken : String)
  /-- A call of `saveMessageHistory`; `written` tells whether the INSERT went
  through. -/
  | saveMessageHistory (data : HistoryData) (written : Bool)
  /-- A call of `logEvent`. -/
  | logEvent (eventType : String) (pageId : String) (responseType : String)
      (processingTime : Nat)
  /-- The update that sets `processed = true` on a queued event. -/
  | dbMarkProcessed (eventId : Nat)
  /-- The update that adds one to `retry_count` and stores the error text. -/
  | dbBumpRetry (eventId : Nat) (errorMessage : String)

namespace Effect

/-- The effect is an outbound message. -/
def isSend : Effect → Bool
  | sendMessage _ _ _ _ => true
  | _ => false

/-- The effect is a `message_processed` lifecycle log event. -/
def isMessageProcessedLog : Effect → Bool
  | logEvent eventType _ _ _ => eventType == "message_processed"
  | _ => false

/-- The effect is a query on ai_configs or a call of an AI provider. -/
def isAI : Effect → Bool
  | dbSelectAIConfigs _ _ => true
  | providerCall _ _ => true
  | _ => false

end Effect

/-- The messaging event `{ sender: { id }, message: { mid, text } }` of the
webhook contract. -/
def messagingEvent (senderId mid text : String) : JSVal :=
  .obj [("sender", .obj [("id", .str senderId)]),
        ("message", .obj [("mid", .str mid), ("text", .str text)])]

/-- What the outside world answers during one run of
`processIncomingMessage`. -/
structure Env where
  /-- Rows of the facebook_pages query (active pages with this page id). -/
  pages : Except String (List Page)
  /-- Result of `getSenderName`, which turns every failure into `null`. -/
  senderName : Option String
  /-- Rows of the predefined_responses query. -/
  rules : Except String (List Rule)
  /-- Rows of the ai_configs query (active configs of the owner and page). -/
  aiConfigs : Except String (List AIConfig)
  /-- Outcome of the provider object's `generateResponse`. -/
  provider : Except String String
  /-- Outcome of the `axios.post` of `sendMessage`. -/
  send : Except String Unit
  /-- Outcome of the INSERT into message_history for a row that respects the
  NOT NULL columns. -/
  historyInsert : Except String Unit
  /-- The value of `Date.now() - startTime` when it is read. -/
  elapsed : Nat

/-- What a call leaves behind: the effects it made and the error it threw,
if any. -/
structure Outcome where
  effects : List Effect
  thrown : Option String

/-- The local `responseData` of `processIncomingMessage` (lines 49-55), without
its unused `processingTime`. -/
structure ResponseData where
  text : Option String
  type : String
  matchedKeyword : Option String
  error : Option String
  deriving DecidableEq, Repr

/-- The object returned by `tryAIResponse`, reduced to the two fields that
`processIncomingMessage` reads back (`text` and `error`). -/
structure AIResponse where
  text : Option String
  error : Option String
  deriving DecidableEq, Repr

/-- Truthiness of a value that is `null` or a string. -/
def textTruthy : Option String → Bool
  | none => false
  | some s => s != ""

namespace AIProviderManager

/-- What `this.providers[key]` evaluates to. -/
inductive ProviderSlot where
  | openai
  | mistral
  | claude
  /-- A property inherited from `Object.prototype`: truthy, but without a
  `generateResponse` method. -/
  | inherited
  /-- The value `undefined`. -/
  | absent
  deriving DecidableEq, Repr

/-- The lookup `this.providers[name.toLowerCase()]` (lines 19, 46, 59).  The
only all-lower-case property names of `Object.prototype` are `constructor` and
`__proto__`. -/
def lookup (name : String) : ProviderSlot :=
  let key := toLowerCase name
  if key = "openai" then .openai
  else if key = "mistral" then .mistral
  else if key = "claude" then .claude
  else if key = "constructor" ∨ key = "__proto__" then .inherited
  else .absent

/-- Model of `AIProviderManager.generateResponse(messageText, config)` (lines 18-40):
the `text` of the returned object, or the message of the error thrown. -/
def generateResponse (providerOutcome : Except String String) (messageText : JSVal)
    (config : AIConfig) : Except String String × List Effect :=
  match lookup config.provider with
  | .absent => (.error ("Provider IA non supporté: " ++ config.provider), [])
  | .inherited =>
    (.error ("Erreur " ++ config.provider ++ ": provider.generateResponse is not a function"), [])
  | _ =>
    match providerOutcome with
    | .ok response => (.ok response, [Effect.providerCall config messageText])
    | .error message =>
      (.error ("Erreur " ++ config.provider ++ ": " ++ message),
        [Effect.providerCall config messageText])

end AIProviderManager

namespace FacebookManager

/-- Model of `tryAIResponse(userId, pageId, messageText)` (lines 165-200): `null` when
no active config exists, the generated text on success, and the object
`{ text: null, error: error.message }` built by the `catch` otherwise.  The
`fallback_only` test of lines 179-182 has an empty body. -/
def tryAIResponse (env : Env) (userId : Int) (pageId : String) (messageText : JSVal) :
    Option AIResponse × List Effect :=
  match env.aiConfigs with
  | .error message =>
    (some { text := none, error := some message }, [Effect.dbSelectAIConfigs userId pageId])
  | .ok [] => (none, [Effect.dbSelectAIConfigs userId pageId])
  | .ok (aiConfig :: _) =>
    match AIProviderManager.generateResponse env.provider messageText aiConfig with
    | (.ok text, fx) =>
      (some { text := some text, error := none }, Effect.dbSelectAIConfigs userId pageId :: fx)
    | (.error message, fx) =>
      (some { text := none, error := some message }, Effect.dbSelectAIConfigs userId pageId :: fx)

/-- Model of `sendMessage(pageId, recipientId, messageText, accessToken)` (lines
205-230): one post to the Graph API; its `catch` logs and rethrows. -/
def sendMessage (env : Env) (pageId : String) (recipientId : JSVal) (messageText : String)
    (accessToken : String) : Except String Unit × List Effect :=
  (env.send, [Effect.sendMessage pageId recipientId messageText accessToken])

/-- The NOT NULL columns of `message_history` (user_id, page_id, message_id,
sender_id) all receive a value. -/
def historyRowAccepted (data : HistoryData) : Bool :=
  data.userId.isSome && !data.messageId.isNullish && !data.senderId.isNullish

/-- Model of `saveMessageHistory(data)` (lines 307-332): one INSERT, whose failure is
logged and swallowed. -/
def saveMessageHistory (env : Env) (data : HistoryData) : List Effect :=
  [Effect.saveMessageHistory data (historyRowAccepted data && env.historyInsert.isOk)]

/-- The call `logEvent(eventType, { pageId, responseType, processingTime })`
(lines 337-354): one INSERT, whose failure is logged and swallowed. -/
def logEvent (eventType : String) (pageId : String) (responseType : String)
    (processingTime : Nat) : List Effect :=
  [Effect.logEvent eventType pageId responseType processingTime]

/-- The read `messagingData.sender.id` (line 18). -/
def senderIdOf (messagingData : JSVal) : Except String JSVal :=
  match messagingData.getProp "sender" with
  | .error message => .error message
  | .ok sender => sender.getProp "id"

/-- The read `messagingData.message?.text` (lines 19, 106). -/
def messageTextOf (messagingData : JSVal) : JSVal :=
  (messagingData.getPropOpt "message").getPropOpt "text"

/-- The read `messagingData.message?.mid` (lines 20, 104). -/
def messageIdOf (messagingData : JSVal) : JSVal :=
  (messagingData.getPropOpt "message").getPropOpt "mid"

/-- The `catch` block of `processIncomingMessage` (lines 97-111), entered with
the message of the error caught and the effects made so far.  Reading
`messagingData.message` throws again when `messagingData` is `null`. -/
def catchBlock (env : Env) (pageId : String) (messagingData : JSVal) (errorMessage : String)
    (before : List Effect) : Outcome :=
  match messagingData.getProp "message" with
  | .error message => { effects := before, thrown := some message }
  | .ok _ =>
    { effects := before ++ saveMessageHistory env
        { userId := none
          pageId := pageId
          messageId := messageIdOf messagingData
          senderId := (messagingData.getPropOpt "sender").getPropOpt "id"
          senderName := none
          messageText := messageTextOf messagingData
          responseText := none
          responseType := "error"
          matchedKeyword := none
          processingTime := env.elapsed
          errorMessage := some errorMessage }
      thrown := none }

/-- Lines 45-67 of `processIncomingMessage`: the rule lookup, then the AI
fallback when no rule was found; the resulting `responseData` and the effects
made. -/
def resolve (env : Env) (userId : Int) (pageId : String) (messageText : JSVal) :
    ResponseData × List Effect :=
  match findPredefinedResponse env.rules messageText with
  | some predefinedResponse =>
    ({ text := some predefinedResponse.response
       type := "predefined"
       matchedKeyword := some predefinedResponse.keyword
       error := none },
      [Effect.dbSelectRules userId pageId])
  | none =>
    match tryAIResponse env userId pageId messageText with
    | (some aiResponse, fx) =>
      ({ text := aiResponse.text, type := "ai", matchedKeyword := none,
         error := aiResponse.error },
        Effect.dbSelectRules userId pageId :: fx)
    | (none, fx) =>
      ({ text := none, type := "none", matchedKeyword := none, error := none },
        Effect.dbSelectRules userId pageId :: fx)

/-- Lines 74-95 of `processIncomingMessage`: the history row, then the
`message_processed` log event. -/
def recordAndLog (env : Env) (page : Page) (pageId : String) (senderId messageId : JSVal)
    (messageText : JSVal) (responseData : ResponseData) : List Effect :=
  saveMessageHistory env
    { userId := some page.user_id
      pageId := pageId
      messageId := messageId
      senderId := senderId
      senderName := env.senderName
      messageText := messageText
      responseText := responseData.text
      responseType := responseData.type
      matchedKeyword := responseData.matchedKeyword
      processingTime := env.elapsed
      errorMessage := responseData.error }
  ++ logEvent "message_processed" pageId responseData.type env.elapsed

/-- Lines 38-95 of `processIncomingMessage`, once the page row is known. -/
def processWithPage (env : Env) (page : Page) (pageId : String) (messagingData : JSVal)
    (senderId messageId messageText : JSVal) : Outcome :=
  let lookups :=
    [Effect.dbSelectPage pageId, Effect.graphGetSenderName senderId page.access_token]
  match resolve env page.user_id pageId messageText with
  | (responseData, fx) =>
    match responseData.text with
    | some text =>
      if text != "" then
        match sendMessage env pageId senderId text page.access_token with
        | (.error message, sent) =>
          catchBlock env pageId messagingData message (lookups ++ fx ++ sent)
        | (.ok _, sent) =>
          { effects := lookups ++ fx ++ sent ++
              recordAndLog env page pageId senderId messageId messageText responseData
            thrown := none }
      else
        { effects := lookups ++ fx ++
            recordAndLog env page pageId senderId messageId messageText responseData
          thrown := none }
    | none =>
      { effects := lookups ++ fx ++
          recordAndLog env page pageId senderId messageId messageText responseData
        thrown := none }

/-- Model of `processIncomingMessage(pageId, messagingData)` (lines 14-113). -/
def processIncomingMessage (env : Env) (pageId : String) (messagingData : JSVal) : Outcome :=
  match senderIdOf messagingData with
  | .error message => catchBlock env pageId messagingData message []
  | .ok senderId =>
    let messageText := messageTextOf messagingData
    let messageId := messageIdOf messagingData
    if !messageText.truthy || !messageId.truthy then
      { effects := [], thrown := none }
    else
      match env.pages with
      | .error message =>
        catchBlock env pageId messagingData message [Effect.dbSelectPage pageId]
      | .ok [] => { effects := [Effect.dbSelectPage pageId], thrown := none }
      | .ok (page :: _) =>
        processWithPage env page pageId messagingData senderId messageId messageText

/-- What the outside world answers during one turn of the loop of
`processQueuedEvents`. -/
structure SweepEnv where
  /-- The function `JSON.parse`. -/
  jsonParse : String → Except String JSVal
  /-- The scenario of the replayed message. -/
  message : Env
  /-- Outcome of the update that sets `processed = true`. -/
  markProcessed : Except String Unit
  /-- Outcome of the update that adds one to `retry_count`. -/
  bumpRetry : Except String Unit

/-- The row of the event after one turn of the loop, the effects of the turn,
and the error that leaves the loop, if any. -/
structure SweepStep where
  event : QueuedEvent
  effects : List Effect
  thrown : Option String

/-- The inner `try` block of `processQueuedEvents` (lines 576-587): parse the
payload, replay it when it is a message, mark the event processed. -/
def replay (env : SweepEnv) (event : QueuedEvent) : Except String Unit × List Effect :=
  match env.jsonParse event.raw_data with
  | .error message => (.error message, [])
  | .ok rawData =>
    let out : Outcome :=
      if event.event_type = "message" then
        processIncomingMessage env.message event.page_id rawData
      else
        { effects := [], thrown := none }
    match out.thrown with
    | some message => (.error message, out.effects)
    | none =>
      match env.markProcessed with
      | .error message => (.error message, out.effects ++ [Effect.dbMarkProcessed event.id])
      | .ok _ => (.ok (), out.effects ++ [Effect.dbMarkProcessed event.id])

/-- One turn of the `for (const event of events)` loop of
`processQueuedEvents` (lines 575-598).  An error of the update inside the
inner `catch` leaves the loop with the row untouched. -/
def processQueuedEvent (env : SweepEnv) (event : QueuedEvent) : SweepStep :=
  match replay env event with
  | (.ok _, fx) =>
    { event := { event with processed := true }, effects := fx, thrown := none }
  | (.error message, fx) =>
    match env.bumpRetry with
    | .ok _ =>
      { event := { event with retry_count := event.retry_count + 1
                              error_message := some message }
        effects := fx ++ [Effect.dbBumpRetry event.id message]
        thrown := none }
    | .error message2 =>
      { event := event
        effects := fx ++ [Effect.dbBumpRetry event.id message]
        thrown := some message2 }

end FacebookManager

/-! ## The webhook endpoint of `server.js` -/

namespace Server

/-- The calls of `processMessage` that leave the process. -/
inductive Effect where
  | dbSelectPage (pageId : JSVal)
  | dbSelectResponses (userId : Int) (pageId : JSVal)
  | dbSelectAIConfigs (userId : Int) (pageId : JSVal)
  | openaiRequest (aiConfig : AIConfig) (messageText : JSVal)
  | sendFacebookMessage (pageId : JSVal) (recipientId : JSVal) (text : String)
      (accessToken : String)
  | dbInsertHistory (userId : Int) (pageId messageId senderId messageText : JSVal)
      (responseText : Option String) (responseType : String) (written : Bool)

/-- What the outside world answers during one call of `processMessage`. -/
structure Env where
  /-- Rows of the facebook_pages query. -/
  pages : Except String (List Page)
  /-- Rows of the predefined_responses query, ordered by priority only. -/
  responses : Except String (List Rule)
  /-- Rows of the ai_configs query. -/
  aiConfigs : Except String (List AIConfig)
  /-- The `content` read from the OpenAI reply (`null` or a string), or the
  error of the request. -/
  openai : Except String (Option String)
  /-- Outcome of the INSERT into message_history. -/
  historyInsert : Except String Unit

/-- The answer of an Express handler. -/
structure HttpResponse where
  status : Nat
  body : String
  deriving DecidableEq, Repr

/-- The loop body test of line 321 applied down the list: the reply of the
first rule whose lower-cased keyword occurs in the lower-cased message.  The
first argument stands for `String.prototype.toLowerCase`, a function of the
JavaScript runtime. -/
def firstKeywordReplyWith (lower : String → String) (messageText : String) :
    List Rule → Option String
  | [] => none
  | response :: rest =>
    if includes (lower messageText) (lower response.keyword) then
      some response.response
    else firstKeywordReplyWith lower messageText rest

/-- The loop of lines 320-326, for any lower-casing function of the runtime.
With at least one rule to test, a `messageText` without a `toLowerCase`
method throws. -/
def keywordScanWith (lower : String → String) (messageText : JSVal)
    (responses : List Rule) : Except String (Option String) :=
  match responses, messageText with
  | [], _ => .ok none
  | _ :: _, .str text => .ok (firstKeywordReplyWith lower text responses)
  | _ :: _, _ => .error "messageText.toLowerCase is not a function"

/-- The reply picked by the test of line 321, with the lower-casing of the
letters `A`-`Z`. -/
def firstKeywordReply (messageText : String) (responses : List Rule) : Option String :=
  firstKeywordReplyWith toLowerCase messageText responses

/-- The loop of lines 320-326, with the lower-casing of the letters
`A`-`Z`. -/
def keywordScan (messageText : JSVal) (responses : List Rule) : Except String (Option String) :=
  keywordScanWith toLowerCase messageText responses

/-- Model of `generateAIResponse(messageText, aiConfig)` (lines 359-386): the content of
the OpenAI reply for provider `openai`, `null` for any other provider and on
any error. -/
def generateAIResponse (env : Env) (messageText : JSVal) (aiConfig : AIConfig) :
    Option String × List Effect :=
  if aiConfig.provider = "openai" then
    match env.openai with
    | .ok content => (content, [Effect.openaiRequest aiConfig messageText])
    | .error _ => (none, [Effect.openaiRequest aiConfig messageText])
  else (none, [])

/-- Lines 342-351 of `processMessage`: the send when `responseText` is truthy
(`sendFacebookMessage` swallows its errors), then the history row. -/
def sendAndRecord (env : Env) (page : Page) (pageId senderId messageId messageText : JSVal)
    (responseText : Option String) (responseType : String) : List Effect :=
  (if textTruthy responseText then
      [Effect.sendFacebookMessage pageId senderId (responseText.getD "") page.access_token]
    else [])
  ++ [Effect.dbInsertHistory page.user_id pageId messageId senderId messageText responseText
        responseType env.historyInsert.isOk]

/-- Model of `processMessage(pageId, messaging)` (lines 296-356).  The whole body sits
in a `try` whose `catch` only logs, so an error at any step ends the call
with the effects made so far. -/
def processMessage (env : Env) (pageId : JSVal) (messaging : JSVal) : List Effect :=
  match FacebookManager.senderIdOf messaging with
  | .error _ => []
  | .ok senderId =>
    let messageText := FacebookManager.messageTextOf messaging
    let messageId := FacebookManager.messageIdOf messaging
    if !messageText.truthy then []
    else
      match env.pages with
      | .error _ => [Effect.dbSelectPage pageId]
      | .ok [] => [Effect.dbSelectPage pageId]
      | .ok (page :: _) =>
        let queries := [Effect.dbSelectPage pageId, Effect.dbSelectResponses page.user_id pageId]
        match env.responses with
        | .error _ => queries
        | .ok responses =>
          match keywordScan messageText responses with
          | .error _ => queries
          | .ok (some reply) =>
            if textTruthy (some reply) then
              queries ++ sendAndRecord env page pageId senderId messageId messageText
                (some reply) "predefined"
            else
              match env.aiConfigs with
              | .error _ => queries ++ [Effect.dbSelectAIConfigs page.user_id pageId]
              | .ok [] =>
                queries ++ [Effect.dbSelectAIConfigs page.user_id pageId] ++
                  sendAndRecord env page pageId senderId messageId messageText
                    (some reply) "predefined"
              | .ok (aiConfig :: _) =>
                queries ++ [Effect.dbSelectAIConfigs page.user_id pageId] ++
                  (generateAIResponse env messageText aiConfig).2 ++
                  sendAndRecord env page pageId senderId messageId messageText
                    (generateAIResponse env messageText aiConfig).1 "ai"
          | .ok none =>
            match env.aiConfigs with
            | .error _ => queries ++ [Effect.dbSelectAIConfigs page.user_id pageId]
            | .ok [] =>
              queries ++ [Effect.dbSelectAIConfigs page.user_id pageId] ++
                sendAndRecord env page pageId senderId messageId messageText none "none"
            | .ok (aiConfig :: _) =>
              queries ++ [Effect.dbSelectAIConfigs page.user_id pageId] ++
                (generateAIResponse env messageText aiConfig).2 ++
                sendAndRecord env page pageId senderId messageId messageText
                  (generateAIResponse env messageText aiConfig).1 "ai"

/-- The inner loop of the handler (lines 283-285): `processMessage` on each
messaging event; the `n`-th call of the request runs in scenario `env n`. -/
def processMessagingList (env : Nat → Env) (pageId : JSVal) : List JSVal → Nat → List Effect
  | [], _ => []
  | messaging :: rest, n =>
    processMessage (env n) pageId messaging ++ processMessagingList env pageId rest (n + 1)

/-- The list that `for (const messaging of page.messaging || [])` walks. -/
def messagingOf (page : JSVal) : Except String (List JSVal) :=
  if (page.getPropOpt "messaging").truthy then (page.getPropOpt "messaging").iterate
  else .ok []

/-- The outer loop of the handler (lines 280-286): the error that leaves it,
if any, and the effects made. -/
def processEntries (env : Nat → Env) : List JSVal → Nat → Except String Unit × List Effect
  | [], _ => (.ok (), [])
  | page :: rest, n =>
    match page.getProp "id" with
    | .error message => (.error message, [])
    | .ok pageId =>
      match messagingOf page with
      | .error message => (.error message, [])
      | .ok events =>
        ((processEntries env rest (n + events.length)).1,
          processMessagingList env pageId events n ++
            (processEntries env rest (n + events.length)).2)

/-- The list that `for (const page of entry)` walks, `entry` being read off
the request body (lines 278, 280). -/
def entriesOf (body : JSVal) : Except String (List JSVal) :=
  match body.getProp "entry" with
  | .error message => .error message
  | .ok entry => entry.iterate

/-- The handler `app.post('/webhook/facebook', ...)` (lines 276-293). -/
def webhookFacebook (env : Nat → Env) (body : JSVal) : HttpResponse × List Effect :=
  match entriesOf body with
  | .error _ => ({ status := 500, body := "Error" }, [])
  | .ok entries =>
    match processEntries env entries 0 with
    | (.ok _, fx) => ({ status := 200, body := "OK" }, fx)
    | (.error _, fx) => ({ status := 500, body := "Error" }, fx)

/-- An entry the handler walks without a `TypeError`: not `null` or
`undefined`, with a `messaging` that is falsy, an array or a string. -/
def entryWalkable (page : JSVal) : Bool :=
  !page.isNullish &&
    (!(page.getPropOpt "messaging").truthy ||
      match page.getPropOpt "messaging" with
      | .arr _ => true
      | .str _ => true
      | _ => false)

/-- A request body whose `entry` is an array (or a string) of walkable
entries. -/
def bodyWalkable (body : JSVal) : Bool :=
  match body with
  | .obj fields =>
    match (fields.lookup "entry").getD .undefined with
    | .arr entries => entries.all entryWalkable
    | .str _ => true
    | _ => false
  | _ => false

end Server
/-! ## The prompt builder and the generation requests of `lib/aiProviders.js` -/

/-- The body that a provider posts for one generation, with the headers and
the timeout of the call. -/
structure GenerationRequest where
  url : String
  model : String
  /-- The system prompt. -/
  system : String
  /-- The prompt travels as the first entry of `messages` (OpenAI, Mistral)
  rather than in the `system` field (Claude). -/
  systemInMessages : Bool
  /-- The `content` of the user message. -/
  user : JSVal
  temperature : Rat
  max_tokens : Int
  presence_penalty : Option Rat
  frequency_penalty : Option Rat
  authorization : String
  anthropic_version : Option String
  timeout : Nat

/-- The expression `parseFloat(config.temperature) || 0.7`: a NULL column
parses to `NaN`, and both `NaN` and zero are falsy. -/
def temperatureParam (config : AIConfig) : Rat :=
  match config.temperature with
  | none => 0.7
  | some t => if t = 0 then 0.7 else t

/-- The expression `parseInt(config.max_tokens) || 500`. -/
def maxTokensParam (config : AIConfig) : Int :=
  match config.max_tokens with
  | none => 500
  | some n => if n = 0 then 500 else n

/-- The expression `config.model || fallback`. -/
def modelParam (config : AIConfig) (fallback : String) : String :=
  if config.model != "" then config.model else fallback

namespace OpenAIProvider

/-- Model of `buildSystemPrompt(config)` (lines 128-172): the prompt grows by
one `prompt += ...` per block. -/
def buildSystemPrompt (config : AIConfig) : String :=
  let prompt := "Tu es un assistant de réseaux sociaux pour une page Facebook. "
  let prompt :=
    if config.tone = some "professional" then
      prompt ++ "Utilise un ton professionnel et courtois. "
    else if config.tone = some "friendly" then
      prompt ++ "Sois amical et chaleureux dans tes réponses. "
    else if config.tone = some "humorous" then
      prompt ++ "Utilise de l\x27humour approprié et sois décontracté. "
    else if config.tone = some "formal" then
      prompt ++ "Maintiens un ton formel et respectueux. "
    else
      prompt ++ "Sois naturel et adapte-toi au contexte. "
  let prompt :=
    if config.style = some "short" then
      prompt ++ "Garde tes réponses courtes et concises (max 50 mots). "
    else if config.style = some "medium" then
      prompt ++ "Utilise des réponses de longueur moyenne (50-150 mots). "
    else if config.style = some "long" then
      prompt ++ "Tu peux donner des réponses détaillées si nécessaire. "
    else
      prompt
  let prompt :=
    if textTruthy config.instructions then
      prompt ++ ("Instructions spéciales: " ++ config.instructions.getD "" ++ " ")
    else
      prompt
  let language := if textTruthy config.language then config.language.getD "" else "fr"
  prompt ++ ("Réponds toujours en " ++ (if language = "fr" then "français" else "anglais") ++ ".")

/-- The request of `generateResponse(messageText, config)` (lines 73-96). -/
def generationRequest (messageText : JSVal) (config : AIConfig) : GenerationRequest :=
  { url := "https://api.openai.com/v1/chat/completions"
    model := modelParam config "gpt-3.5-turbo"
    system := buildSystemPrompt config
    systemInMessages := true
    user := messageText
    temperature := temperatureParam config
    max_tokens := maxTokensParam config
    presence_penalty := some 0.1
    frequency_penalty := some 0.1
    authorization := "Bearer " ++ config.api_key
    anthropic_version := none
    timeout := 30000 }

end OpenAIProvider

namespace MistralProvider

/-- Model of `buildSystemPrompt(config)` (lines 241-244): a call of the OpenAI
builder. -/
def buildSystemPrompt (config : AIConfig) : String :=
  OpenAIProvider.buildSystemPrompt config

/-- The request of `generateResponse(messageText, config)` (lines 188-209). -/
def generationRequest (messageText : JSVal) (config : AIConfig) : GenerationRequest :=
  { url := "https://api.mistral.ai/v1/chat/completions"
    model := modelParam config "mistral-small"
    system := buildSystemPrompt config
    systemInMessages := true
    user := messageText
    temperature := temperatureParam config
    max_tokens := maxTokensParam config
    presence_penalty := none
    frequency_penalty := none
    authorization := "Bearer " ++ config.api_key
    anthropic_version := none
    timeout := 30000 }

end MistralProvider

namespace ClaudeProvider

/-- Model of `buildSystemPrompt(config)` (lines 315-318): a call of the OpenAI
builder. -/
def buildSystemPrompt (config : AIConfig) : String :=
  OpenAIProvider.buildSystemPrompt config

/-- The request of `generateResponse(messageText, config)` (lines 260-282). -/
def generationRequest (messageText : JSVal) (config : AIConfig) : GenerationRequest :=
  { url := "https://api.anthropic.com/v1/messages"
    model := modelParam config "claude-3-sonnet-20240229"
    system := buildSystemPrompt config
    systemInMessages := false
    user := messageText
    temperature := temperatureParam config
    max_tokens := maxTokensParam config
    presence_penalty := none
    frequency_penalty := none
    authorization := "Bearer " ++ config.api_key
    anthropic_version := some "2023-06-01"
    timeout := 30000 }

end ClaudeProvider

/-! ### The parts of the prompt, as the specification names them -/

namespace PromptSpec

/-- The fixed role preamble. -/
def rolePreamble : String :=
  "Tu es un assistant de réseaux sociaux pour une page Facebook. "

/-- The neutral clause that asks to adapt to the context. -/
def neutralToneClause : String :=
  "Sois naturel et adapte-toi au contexte. "

/-- The tone clause: one text per known tone, the neutral clause for any
other or absent tone. -/
def toneClause : Option String → String
  | some "professional" => "Utilise un ton professionnel et courtois. "
  | some "friendly" => "Sois amical et chaleureux dans tes réponses. "
  | some "humorous" => "Utilise de l\x27humour approprié et sois décontracté. "
  | some "formal" => "Maintiens un ton formel et respectueux. "
  | _ => neutralToneClause

/-- The style clause: one text per known style, nothing for any other or
absent style. -/
def styleClause : Option String → String
  | some "short" => "Garde tes réponses courtes et concises (max 50 mots). "
  | some "medium" => "Utilise des réponses de longueur moyenne (50-150 mots). "
  | some "long" => "Tu peux donner des réponses détaillées si nécessaire. "
  | _ => ""

/-- The instructions part: the label, the text as given and a separating
blank when there is a text, nothing when the text is absent or empty. -/
def instructionsClause : Option String → String
  | none => ""
  | some text => if text = "" then "" else "Instructions spéciales: " ++ text ++ " "

/-- The directive that asks for French. -/
def frenchDirective : String :=
  "Réponds toujours en français."

/-- The directive that asks for English. -/
def englishDirective : String :=
  "Réponds toujours en anglais."

/-- The language directive by the words of the specification: French for
`fr`, English for anything else. -/
def languageDirective : Option String → String
  | some "fr" => frenchDirective
  | _ => englishDirective

end PromptSpec

/-! ## The table `webhook_events` and the sweep of `processQueuedEvents` -/

namespace FacebookManager

/-- The WHERE clause of the sweep query (line 570):
`processed = false AND retry_count < 3`. -/
def isPending (event : QueuedEvent) : Bool :=
  !event.processed && decide (event.retry_count < 3)

/-- The order of `ORDER BY created_at ASC` (line 571). -/
def createdBefore (a b : QueuedEvent) : Prop :=
  a.created_at ≤ b.created_at

instance : DecidableRel createdBefore := fun a b => by
  unfold createdBefore; infer_instance

instance : IsTotal QueuedEvent createdBefore :=
  ⟨fun a b => Nat.le_total a.created_at b.created_at⟩

instance : IsTrans QueuedEvent createdBefore :=
  ⟨fun _ _ _ hab hbc => Nat.le_trans hab hbc⟩

/-- The rows returned by the sweep query (lines 568-573): the pending events,
oldest first, ten at most. -/
def selectPending (table : List QueuedEvent) : List QueuedEvent :=
  ((table.filter isPending).insertionSort createdBefore).take 10

/-- The statement `UPDATE webhook_events SET processed = true ... WHERE id = ?`
(lines 584-587) applied to the table. -/
def applyMarkProcessed (table : List QueuedEvent) (id : Nat) : List QueuedEvent :=
  table.map fun row => if row.id = id then { row with processed := true } else row

/-- The statement `UPDATE webhook_events SET retry_count = retry_count + 1,
error_message = ? WHERE id = ?` (lines 591-594) applied to the table. -/
def applyBumpRetry (table : List QueuedEvent) (id : Nat) (message : String) :
    List QueuedEvent :=
  table.map fun row =>
    if row.id = id then
      { row with retry_count := row.retry_count + 1, error_message := some message }
    else row

/-- What the outside world answers during one run of `processQueuedEvents`. -/
structure SweepWorld where
  /-- Outcome of the sweep query. -/
  select : Except String Unit
  /-- The scenario of the loop turn on the event with the given id. -/
  turn : Nat → SweepEnv

/-- The table after a sweep, the effects of the sweep, and the events whose
loop turn was started, in order. -/
structure SweepResult where
  table : List QueuedEvent
  effects : List Effect
  replayed : List QueuedEvent

/-- The loop `for (const event of events)` of `processQueuedEvents` (lines
575-598) over the selected rows, acting on the table.  An error of the update
inside the inner `catch` ends the loop. -/
def sweepLoop (turn : Nat → SweepEnv) : List QueuedEvent → List QueuedEvent → SweepResult
  | [], table => { table := table, effects := [], replayed := [] }
  | event :: rest, table =>
    match replay (turn event.id) event with
    | (.ok _, fx) =>
      { table := (sweepLoop turn rest (applyMarkProcessed table event.id)).table
        effects := fx ++ (sweepLoop turn rest (applyMarkProcessed table event.id)).effects
        replayed :=
          event :: (sweepLoop turn rest (applyMarkProcessed table event.id)).replayed }
    | (.error message, fx) =>
      match (turn event.id).bumpRetry with
      | .ok _ =>
        { table := (sweepLoop turn rest (applyBumpRetry table event.id message)).table
          effects := fx ++ Effect.dbBumpRetry event.id message ::
            (sweepLoop turn rest (applyBumpRetry table event.id message)).effects
          replayed :=
            event :: (sweepLoop turn rest (applyBumpRetry table event.id message)).replayed }
      | .error _ =>
        { table := table
          effects := fx ++ [Effect.dbBumpRetry event.id message]
          replayed := [event] }

/-- Model of `processQueuedEvents()` (lines 566-603).  A failing sweep query
ends in the outer `catch`, which only logs. -/
def processQueuedEvents (world : SweepWorld) (table : List QueuedEvent) : SweepResult :=
  match world.select with
  | .error _ => { table := table, effects := [], replayed := [] }
  | .ok _ => sweepLoop world.turn (selectPending table) table

/-- The table after a run of sweeps, one after the other. -/
def runSweeps : List SweepWorld → List QueuedEvent → List QueuedEvent
  | [], table => table
  | world :: rest, table => runSweeps rest (processQueuedEvents world table).table

/-- Model of `saveWebhookEvent(pageId, eventType, rawData)` (lines 551-561): the
INSERT leaves `processed`, `error_message` and `retry_count` to their column
defaults; `id` is the key the database assigns and `created_at` its clock.
A failing INSERT is logged and swallowed. -/
def saveWebhookEvent (insert : Except String Unit) (id created_at : Nat)
    (pageId eventType rawData : String) (table : List QueuedEvent) : List QueuedEvent :=
  match insert with
  | .error _ => table
  | .ok _ =>
    table ++ [{ id := id, page_id := pageId, event_type := eventType, raw_data := rawData
                processed := false, error_message := none, retry_count := 0
                created_at := created_at }]

/-- The tables that inserts of new events (under a fresh primary key) and
sweeps, one at a time, can build from the empty table. -/
inductive Reachable : List QueuedEvent → Prop
  | empty : Reachable []
  | insert (table : List QueuedEvent) (outcome : Except String Unit) (id created_at : Nat)
      (pageId eventType rawData : String) :
      Reachable table → (∀ row ∈ table, row.id ≠ id) →
      Reachable (saveWebhookEvent outcome id created_at pageId eventType rawData table)
  | sweep (table : List QueuedEvent) (world : SweepWorld) :
      Reachable table → Reachable (processQueuedEvents world table).table

/-- One row before and after a run of updates that name only the keys in
`ids`: the key is kept, `processed` is never reset, `retry_count` does not go
down and goes up by one at most, and a row with another key is untouched. -/
def RowStep (ids : List Nat) (before after : QueuedEvent) : Prop :=
  after.id = before.id ∧ (before.processed = true → after.processed = true) ∧
    before.retry_count ≤ after.retry_count ∧ after.retry_count ≤ before.retry_count + 1 ∧
    (before.id ∉ ids → after = before)

/-- One event before and after a sweep: the same row, with a `retry_count`
that did not go down and went up by one at most. -/
def RetryStep (before after : QueuedEvent) : Prop :=
  after.id = before.id ∧ before.retry_count ≤ after.retry_count ∧
    after.retry_count ≤ before.retry_count + 1

end FacebookManager

/-! ## The model catalogs and the request behind a provider call -/

namespace OpenAIProvider

/-- The field `this.models` set by the constructor (line 70). -/
def models : List String :=
  ["gpt-3.5-turbo", "gpt-4", "gpt-4-turbo", "gpt-4o"]

end OpenAIProvider

namespace MistralProvider

/-- The field `this.models` set by the constructor (line 185). -/
def models : List String :=
  ["mistral-tiny", "mistral-small", "mistral-medium", "mistral-large"]

end MistralProvider

namespace ClaudeProvider

/-- The field `this.models` set by the constructor (line 257). -/
def models : List String :=
  ["claude-3-haiku-20240307", "claude-3-sonnet-20240229", "claude-3-opus-20240229"]

end ClaudeProvider

namespace AIProviderManager

/-- Model of `getAvailableModels(providerName)` (lines 58-61): the catalog of
the provider found, the empty list when the lookup gives `undefined`.  On an
inherited property the call `provider.getAvailableModels()` throws, and
nothing catches it. -/
def getAvailableModels (providerName : String) : Except String (List String) :=
  match lookup providerName with
  | .openai => .ok OpenAIProvider.models
  | .mistral => .ok MistralProvider.models
  | .claude => .ok ClaudeProvider.models
  | .inherited => .error "provider.getAvailableModels is not a function"
  | .absent => .ok []

/-- The request that `provider.generateResponse(messageText, config)` posts,
for the provider that the lookup of `config.provider` finds; none when the
lookup finds no provider object. -/
def requestOf (config : AIConfig) (messageText : JSVal) : Option GenerationRequest :=
  match lookup config.provider with
  | .openai => some (OpenAIProvider.generationRequest messageText config)
  | .mistral => some (MistralProvider.generationRequest messageText config)
  | .claude => some (ClaudeProvider.generationRequest messageText config)
  | .inherited => none
  | .absent => none

end AIProviderManager

namespace Effect

/-- The effect is a call of `saveMessageHistory`. -/
def isHistory : Effect → Bool
  | saveMessageHistory _ _ => true
  | _ => false

/-- The effect with the `fallback_only` column of the config of a provider
call set to a fixed value; the request of the call does not hold the column
(see `AIProviderManager.requestOf`). -/
def withoutFallbackFlag : Effect → Effect
  | providerCall config messageText =>
    providerCall { config with fallback_only := true } messageText
  | effect => effect

end Effect

/-! ## Lemmas on strings -/

theorem includesFrom_iff (s k : List Char) : includesFrom s k = true ↔ k <:+: s := by
  induction s with
  | nil =>
    simp [includesFrom, List.isPrefixOf_iff_prefix]
  | cons c cs ih =>
    simp [includesFrom, List.infix_cons_iff, ih, List.isPrefixOf_iff_prefix]

theorem startsWith_iff (s k : String) : startsWith s k = true ↔ k.data <+: s.data := by
  simp [startsWith, List.isPrefixOf_iff_prefix]

theorem endsWith_iff (s k : String) : endsWith s k = true ↔ k.data <:+ s.data := by
  simp [endsWith, List.isSuffixOf_iff_suffix]

theorem includes_iff (s k : String) : includes s k = true ↔ k.data <:+: s.data := by
  simp [includes, includesFrom_iff]

/-! ## Lemmas on the rule scan -/

namespace FacebookManager

theorem rankGe_not_rankLt {a b : Rule} (h : rankGe a b) : ¬ rankLt a b := by
  unfold rankGe at h
  unfold rankLt
  omega

theorem rankLt_irrefl (a : Rule) : ¬ rankLt a a := by
  unfold rankLt
  omega

theorem scanResponsesWith_some {lower : String → String} {m : String}
    {responses : List Rule} {r : Rule} (h : scanResponsesWith lower m responses = some r) :
    r ∈ responses ∧ ruleMatchesWith lower m r = true := by
  induction responses with
  | nil => simp [scanResponsesWith] at h
  | cons a rest ih =>
    unfold scanResponsesWith at h
    by_cases ha : ruleMatchesWith lower m a = true
    · simp [ha] at h
      subst h
      exact ⟨List.mem_cons_self _ _, ha⟩
    · simp [ha] at h
      exact ⟨List.mem_cons_of_mem _ (ih h).1, (ih h).2⟩

theorem scanResponsesWith_none {lower : String → String} {m : String}
    {responses : List Rule} :
    scanResponsesWith lower m responses = none ↔
      ∀ r ∈ responses, ruleMatchesWith lower m r = false := by
  induction responses with
  | nil => simp [scanResponsesWith]
  | cons a rest ih =>
    unfold scanResponsesWith
    by_cases ha : ruleMatchesWith lower m a = true
    · simp [ha]
    · simp [ha, ih]

theorem scanResponsesWith_maximal {lower : String → String} {m : String}
    {responses : List Rule} {r : Rule}
    (hord : FetchOrdered responses) (h : scanResponsesWith lower m responses = some r) :
    ∀ r' ∈ responses, ruleMatchesWith lower m r' = true → ¬ rankLt r r' := by
  induction responses with
  | nil => simp [scanResponsesWith] at h
  | cons a rest ih =>
    have hpw := List.pairwise_cons.mp hord
    unfold scanResponsesWith at h
    by_cases ha : ruleMatchesWith lower m a = true
    · simp [ha] at h
      subst h
      intro r' hr' _
      rcases List.mem_cons.mp hr' with rfl | hin
      · exact rankLt_irrefl _
      · exact rankGe_not_rankLt (hpw.1 r' hin)
    · simp [ha] at h
      intro r' hr' hm
      rcases List.mem_cons.mp hr' with rfl | hin
      · exact absurd hm ha
      · exact ih hpw.2 h r' hin hm

theorem ruleKeyword_eq (r : Rule) :
    ruleKeyword r = if r.case_sensitive then r.keyword else toLowerCase r.keyword :=
  rfl

theorem ruleMatches_eq (m : String) (r : Rule) :
    ruleMatches m r =
      if r.match_type = some "exact" then m == ruleKeyword r
      else if r.match_type = some "starts_with" then startsWith m (ruleKeyword r)
      else if r.match_type = some "ends_with" then endsWith m (ruleKeyword r)
      else includes m (ruleKeyword r) :=
  rfl

theorem findPredefinedResponse_ok_str (responses : List Rule) (text : String) :
    findPredefinedResponse (.ok responses) (.str text) =
      scanResponses (trim (toLowerCase text)) responses :=
  rfl

theorem findPredefinedResponse_ok_nil (messageText : JSVal) :
    findPredefinedResponse (.ok []) messageText = none := by
  cases messageText <;> rfl

theorem scanResponses_some {m : String} {responses : List Rule} {r : Rule}
    (h : scanResponses m responses = some r) : r ∈ responses ∧ ruleMatches m r = true :=
  scanResponsesWith_some h

theorem scanResponses_none {m : String} {responses : List Rule} :
    scanResponses m responses = none ↔ ∀ r ∈ responses, ruleMatches m r = false :=
  scanResponsesWith_none

theorem scanResponses_maximal {m : String} {responses : List Rule} {r : Rule}
    (hord : FetchOrdered responses) (h : scanResponses m responses = some r) :
    ∀ r' ∈ responses, ruleMatches m r' = true → ¬ rankLt r r' :=
  scanResponsesWith_maximal hord h

end FacebookManager

/-! ## Rule matching (`findPredefinedResponse`) -/

namespace FacebookManager

/-- C2, evaluated on the code: a case-sensitive `exact` rule with keyword
"Hello" is compared with the lower-cased message, so it matches neither the
message "Hello" nor the message "hello". -/
theorem case_sensitive_rule_sees_lowered_message :
    findPredefinedResponse (.ok [⟨1, "Hello", "Hi!", 1, some "exact", true⟩]) (.str "Hello")
        = none ∧
      findPredefinedResponse (.ok [⟨1, "Hello", "Hi!", 1, some "exact", true⟩]) (.str "hello")
        = none := by
  decide

end FacebookManager

/-! ## Processing one inbound message (`processIncomingMessage`) -/

namespace FacebookManager

theorem getProp_ok_of_not_nullish (v : JSVal) (key : String) (h : v.isNullish = false) :
    ∃ w, v.getProp key = .ok w := by
  cases v <;> simp [JSVal.getProp, JSVal.isNullish] at h ⊢

theorem not_nullish_of_truthy (v : JSVal) (h : v.truthy = true) : v.isNullish = false := by
  cases v <;> simp [JSVal.truthy, JSVal.isNullish] at h ⊢

theorem not_nullish_of_senderIdOf {messagingData senderId : JSVal}
    (h : senderIdOf messagingData = .ok senderId) : messagingData.isNullish = false := by
  cases messagingData <;> simp [senderIdOf, JSVal.getProp, JSVal.isNullish] at h ⊢

/-- The `catch` block rethrows only when `messagingData` is `null` or
`undefined`. -/
theorem catchBlock_of_not_nullish (env : Env) (pageId : String) (messagingData : JSVal)
    (message : String) (before : List Effect) (h : messagingData.isNullish = false) :
    catchBlock env pageId messagingData message before =
      { effects := before ++ saveMessageHistory env
          { userId := none
            pageId := pageId
            messageId := messageIdOf messagingData
            senderId := (messagingData.getPropOpt "sender").getPropOpt "id"
            senderName := none
            messageText := messageTextOf messagingData
            responseText := none
            responseType := "error"
            matchedKeyword := none
            processingTime := env.elapsed
            errorMessage := some message }
        thrown := none } := by
  obtain ⟨w, hw⟩ := getProp_ok_of_not_nullish messagingData "message" h
  simp [catchBlock, hw]

/-- C3, evaluated on the code: with no rule, an active `openai` config and a
provider call that fails, the history row carries `response_type` "ai" (not
"error"), a null response text and the wrapped failure text; nothing is
sent. -/
theorem failed_provider_call_recorded_as_ai :
    processIncomingMessage
        { pages := .ok [⟨7, "P1", "tok"⟩]
          senderName := some "Ann"
          rules := .ok []
          aiConfigs := .ok [⟨"openai", "gpt-4", "key", none, none, none, none, none, none, true⟩]
          provider := .error "timeout of 30000ms exceeded"
          send := .ok ()
          historyInsert := .ok ()
          elapsed := 12 }
        "P1" (messagingEvent "U1" "M1" "hello")
      = { effects :=
            [Effect.dbSelectPage "P1",
             Effect.graphGetSenderName (.str "U1") "tok",
             Effect.dbSelectRules 7 "P1",
             Effect.dbSelectAIConfigs 7 "P1",
             Effect.providerCall
               ⟨"openai", "gpt-4", "key", none, none, none, none, none, none, true⟩
               (.str "hello"),
             Effect.saveMessageHistory
               { userId := some 7
                 pageId := "P1"
                 messageId := .str "M1"
                 senderId := .str "U1"
                 senderName := some "Ann"
                 messageText := .str "hello"
                 responseText := none
                 responseType := "ai"
                 matchedKeyword := none
                 processingTime := 12
                 errorMessage := some "Erreur openai: timeout of 30000ms exceeded" }
               true,
             Effect.logEvent "message_processed" "P1" "ai" 12]
          thrown := none } := by
  rfl

/-- C7: for a message with a sender id, a text and a message id, on an active
page, when no rule is found and the ai_configs query returns no row,
`processIncomingMessage` makes no send and calls `saveMessageHistory` with
`response_type` "none" and a null response text, then logs the event. -/
theorem no_rule_no_config_records_none (env : Env) (pageId : String)
    (messagingData senderId : JSVal) (page : Page) (rest : List Page)
    (hsender : senderIdOf messagingData = .ok senderId)
    (htext : (messageTextOf messagingData).truthy = true)
    (hmid : (messageIdOf messagingData).truthy = true)
    (hpage : env.pages = .ok (page :: rest))
    (hrule : findPredefinedResponse env.rules (messageTextOf messagingData) = none)
    (hcfg : env.aiConfigs = .ok []) :
    processIncomingMessage env pageId messagingData =
      { effects :=
          [Effect.dbSelectPage pageId,
           Effect.graphGetSenderName senderId page.access_token,
           Effect.dbSelectRules page.user_id pageId,
           Effect.dbSelectAIConfigs page.user_id pageId,
           Effect.saveMessageHistory
             { userId := some page.user_id
               pageId := pageId
               messageId := messageIdOf messagingData
               senderId := senderId
               senderName := env.senderName
               messageText := messageTextOf messagingData
               responseText := none
               responseType := "none"
               matchedKeyword := none
               processingTime := env.elapsed
               errorMessage := none }
             (!senderId.isNullish && env.historyInsert.isOk),
           Effect.logEvent "message_processed" pageId "none" env.elapsed]
        thrown := none } := by
  have hm := not_nullish_of_truthy _ hmid
  simp [processIncomingMessage, hsender, htext, hmid, hpage, processWithPage, resolve, hrule,
    tryAIResponse, hcfg, recordAndLog, saveMessageHistory, logEvent, historyRowAccepted, hm]

/-- Instance of C7: the message "hello" on a page whose only rule is an
`exact` rule for "bye" and which has no active AI config. -/
theorem no_rule_no_config_records_none_witness :
    (processIncomingMessage
        { pages := .ok [⟨7, "P1", "tok"⟩]
          senderName := some "Ann"
          rules := .ok [⟨1, "bye", "Bye!", 1, some "exact", false⟩]
          aiConfigs := .ok []
          provider := .error "unused"
          send := .ok ()
          historyInsert := .ok ()
          elapsed := 12 }
        "P1" (messagingEvent "U1" "M1" "hello")).effects.any Effect.isSend = false :=
  congrArg (fun out : Outcome => out.effects.any Effect.isSend)
    (no_rule_no_config_records_none
      { pages := .ok [⟨7, "P1", "tok"⟩]
        senderName := some "Ann"
        rules := .ok [⟨1, "bye", "Bye!", 1, some "exact", false⟩]
        aiConfigs := .ok []
        provider := .error "unused"
        send := .ok ()
        historyInsert := .ok ()
        elapsed := 12 }
      "P1" (messagingEvent "U1" "M1" "hello") (.str "U1") ⟨7, "P1", "tok"⟩ []
      rfl rfl rfl rfl (by decide) rfl)

/-- C6 fails as stated: with the `exact` rule for "hi" found for the message
"Hi", a failing delivery leaves an "error" row instead of the "predefined"
one, and a rule whose response is the empty string sends nothing. -/
theorem predefined_reply_not_always_sent_and_recorded :
    (processIncomingMessage
        { pages := .ok [⟨7, "P1", "tok"⟩]
          senderName := some "Ann"
          rules := .ok [⟨1, "hi", "Hello!", 1, some "exact", false⟩]
          aiConfigs := .ok []
          provider := .error "unused"
          send := .error "Request failed with status code 400"
          historyInsert := .ok ()
          elapsed := 12 }
        "P1" (messagingEvent "U1" "M1" "Hi")).effects
      = [Effect.dbSelectPage "P1",
         Effect.graphGetSenderName (.str "U1") "tok",
         Effect.dbSelectRules 7 "P1",
         Effect.sendMessage "P1" (.str "U1") "Hello!" "tok",
         Effect.saveMessageHistory
           { userId := none
             pageId := "P1"
             messageId := .str "M1"
             senderId := .str "U1"
             senderName := none
             messageText := .str "Hi"
             responseText := none
             responseType := "error"
             matchedKeyword := none
             processingTime := 12
             errorMessage := some "Request failed with status code 400" }
           false] ∧
    (processIncomingMessage
        { pages := .ok [⟨7, "P1", "tok"⟩]
          senderName := some "Ann"
          rules := .ok [⟨1, "hi", "", 1, some "exact", false⟩]
          aiConfigs := .ok []
          provider := .error "unused"
          send := .ok ()
          historyInsert := .ok ()
          elapsed := 12 }
        "P1" (messagingEvent "U1" "M1" "Hi")).effects.any Effect.isSend = false := by
  constructor <;> rfl

/-- C6, amended: when `findPredefinedResponse` returns a rule whose response
is not empty and the delivery succeeds, `processIncomingMessage` sends that
response to the sender and calls `saveMessageHistory` with `response_type`
"predefined", the response and the keyword of the rule; no AI config is
read and no provider is called. -/
theorem predefined_reply_sent_and_recorded (env : Env) (pageId : String)
    (messagingData senderId : JSVal) (page : Page) (rest : List Page) (r : Rule)
    (hsender : senderIdOf messagingData = .ok senderId)
    (htext : (messageTextOf messagingData).truthy = true)
    (hmid : (messageIdOf messagingData).truthy = true)
    (hpage : env.pages = .ok (page :: rest))
    (hrule : findPredefinedResponse env.rules (messageTextOf messagingData) = some r)
    (hreply : r.response ≠ "")
    (hsend : env.send = .ok ()) :
    processIncomingMessage env pageId messagingData =
      { effects :=
          [Effect.dbSelectPage pageId,
           Effect.graphGetSenderName senderId page.access_token,
           Effect.dbSelectRules page.user_id pageId,
           Effect.sendMessage pageId senderId r.response page.access_token,
           Effect.saveMessageHistory
             { userId := some page.user_id
               pageId := pageId
               messageId := messageIdOf messagingData
               senderId := senderId
               senderName := env.senderName
               messageText := messageTextOf messagingData
               responseText := some r.response
               responseType := "predefined"
               matchedKeyword := some r.keyword
               processingTime := env.elapsed
               errorMessage := none }
             (!senderId.isNullish && env.historyInsert.isOk),
           Effect.logEvent "message_processed" pageId "predefined" env.elapsed]
        thrown := none } := by
  have hm := not_nullish_of_truthy _ hmid
  simp [processIncomingMessage, hsender, htext, hmid, hpage, processWithPage, resolve, hrule,
    hreply, sendMessage, hsend, recordAndLog, saveMessageHistory, logEvent, historyRowAccepted,
    hm]

/-- Instance of C6: the message "Hi" against the `exact` rule with keyword
"hi"; no effect of the run touches the AI side. -/
theorem predefined_reply_sent_and_recorded_witness :
    (processIncomingMessage
        { pages := .ok [⟨7, "P1", "tok"⟩]
          senderName := some "Ann"
          rules := .ok [⟨1, "hi", "Hello!", 1, some "exact", false⟩]
          aiConfigs := .ok [⟨"openai", "gpt-4", "key", none, none, none, none, none, none, true⟩]
          provider := .ok "unused"
          send := .ok ()
          historyInsert := .ok ()
          elapsed := 12 }
        "P1" (messagingEvent "U1" "M1" "Hi")).effects.any Effect.isAI = false :=
  congrArg (fun out : Outcome => out.effects.any Effect.isAI)
    (predefined_reply_sent_and_recorded
      { pages := .ok [⟨7, "P1", "tok"⟩]
        senderName := some "Ann"
        rules := .ok [⟨1, "hi", "Hello!", 1, some "exact", false⟩]
        aiConfigs := .ok [⟨"openai", "gpt-4", "key", none, none, none, none, none, none, true⟩]
        provider := .ok "unused"
        send := .ok ()
        historyInsert := .ok ()
        elapsed := 12 }
      "P1" (messagingEvent "U1" "M1" "Hi") (.str "U1") ⟨7, "P1", "tok"⟩ []
      ⟨1, "hi", "Hello!", 1, some "exact", false⟩
      rfl rfl rfl rfl (by decide) (by decide) rfl)

theorem tryAIResponse_effects_no_log (env : Env) (userId : Int) (pageId : String)
    (messageText : JSVal) :
    (tryAIResponse env userId pageId messageText).2.any Effect.isMessageProcessedLog = false := by
  unfold tryAIResponse
  cases env.aiConfigs with
  | error message => simp [Effect.isMessageProcessedLog]
  | ok configs =>
    cases configs with
    | nil => simp [Effect.isMessageProcessedLog]
    | cons aiConfig rest =>
      simp only [AIProviderManager.generateResponse]
      cases AIProviderManager.lookup aiConfig.provider <;>
        cases env.provider <;> simp [Effect.isMessageProcessedLog]

theorem resolve_effects_no_log (env : Env) (userId : Int) (pageId : String)
    (messageText : JSVal) :
    (resolve env userId pageId messageText).2.any Effect.isMessageProcessedLog = false := by
  have h := tryAIResponse_effects_no_log env userId pageId messageText
  unfold resolve
  cases findPredefinedResponse env.rules messageText with
  | some r => simp [Effect.isMessageProcessedLog]
  | none =>
    rcases hres : tryAIResponse env userId pageId messageText with ⟨ai, fx⟩
    rw [hres] at h
    cases ai <;> simpa [Effect.isMessageProcessedLog] using h

/-- C9 fails as stated: when the delivery of the resolved reply fails, the
run emits no `message_processed` log event. -/
theorem failed_delivery_emits_no_log_event :
    (processIncomingMessage
        { pages := .ok [⟨7, "P1", "tok"⟩]
          senderName := some "Ann"
          rules := .ok [⟨1, "hi", "Hello!", 1, some "exact", false⟩]
          aiConfigs := .ok []
          provider := .error "unused"
          send := .error "timeout of 10000ms exceeded"
          historyInsert := .ok ()
          elapsed := 12 }
        "P1" (messagingEvent "U1" "M1" "Hi")).effects.any Effect.isMessageProcessedLog
      = false := by
  rfl

/-- C9, amended: when the delivery of the resolved reply fails,
`processIncomingMessage` does not raise; after the send it makes exactly one
more call, `saveMessageHistory` from its `catch` block with `response_type`
"error", a null response text and the delivery error as `error_message`; the
`message_processed` log event is not emitted. -/
theorem failed_delivery_records_error (env : Env) (pageId : String)
    (messagingData senderId : JSVal) (page : Page) (rest : List Page)
    (reply message : String)
    (hsender : senderIdOf messagingData = .ok senderId)
    (htext : (messageTextOf messagingData).truthy = true)
    (hmid : (messageIdOf messagingData).truthy = true)
    (hpage : env.pages = .ok (page :: rest))
    (hreply : (resolve env page.user_id pageId (messageTextOf messagingData)).1.text
      = some reply)
    (hne : reply ≠ "")
    (hsend : env.send = .error message) :
    (processIncomingMessage env pageId messagingData).thrown = none ∧
    (∃ written,
      (processIncomingMessage env pageId messagingData).effects =
        [Effect.dbSelectPage pageId, Effect.graphGetSenderName senderId page.access_token] ++
        (resolve env page.user_id pageId (messageTextOf messagingData)).2 ++
        [Effect.sendMessage pageId senderId reply page.access_token,
         Effect.saveMessageHistory
           { userId := none
             pageId := pageId
             messageId := messageIdOf messagingData
             senderId := senderId
             senderName := none
             messageText := messageTextOf messagingData
             responseText := none
             responseType := "error"
             matchedKeyword := none
             processingTime := env.elapsed
             errorMessage := some message }
           written]) ∧
    (processIncomingMessage env pageId messagingData).effects.any
      Effect.isMessageProcessedLog = false := by
  have hnn := not_nullish_of_senderIdOf hsender
  have hlog := resolve_effects_no_log env page.user_id pageId (messageTextOf messagingData)
  have hsid : (messagingData.getPropOpt "sender").getPropOpt "id" = senderId := by
    cases messagingData <;> simp [senderIdOf, JSVal.getProp, JSVal.getPropOpt] at hsender ⊢
    rename_i fields
    cases hs : (fields.lookup "sender").getD JSVal.undefined <;>
      simp [hs, JSVal.getProp, JSVal.getPropOpt] at hsender ⊢ <;> exact hsender
  rcases hres : resolve env page.user_id pageId (messageTextOf messagingData) with ⟨rd, fx⟩
  rw [hres] at hreply hlog
  simp only at hreply hlog
  have hproc : processIncomingMessage env pageId messagingData =
      catchBlock env pageId messagingData message
        ([Effect.dbSelectPage pageId, Effect.graphGetSenderName senderId page.access_token] ++
          fx ++ [Effect.sendMessage pageId senderId reply page.access_token]) := by
    simp [processIncomingMessage, hsender, htext, hmid, hpage, processWithPage, hres, hreply,
      hne, sendMessage, hsend]
  rw [hproc, catchBlock_of_not_nullish _ _ _ _ _ hnn, hsid]
  refine ⟨rfl, ⟨false, ?_⟩, ?_⟩
  · simp [saveMessageHistory, historyRowAccepted]
  · simp [saveMessageHistory, List.any_append, hlog, Effect.isMessageProcessedLog]

/-- Instance of C9: a reply generated by the `claude` provider whose delivery
times out; the run ends without raising and without the log event. -/
theorem failed_delivery_records_error_witness :
    (processIncomingMessage
        { pages := .ok [⟨7, "P1", "tok"⟩]
          senderName := none
          rules := .ok []
          aiConfigs := .ok [⟨"Claude", "m", "key", none, none, none, none, none, none, true⟩]
          provider := .ok "Bonjour"
          send := .error "timeout of 10000ms exceeded"
          historyInsert := .ok ()
          elapsed := 40 }
        "P1" (messagingEvent "U1" "M1" "salut")).thrown = none ∧
    (processIncomingMessage
        { pages := .ok [⟨7, "P1", "tok"⟩]
          senderName := none
          rules := .ok []
          aiConfigs := .ok [⟨"Claude", "m", "key", none, none, none, none, none, none, true⟩]
          provider := .ok "Bonjour"
          send := .error "timeout of 10000ms exceeded"
          historyInsert := .ok ()
          elapsed := 40 }
        "P1" (messagingEvent "U1" "M1" "salut")).effects.any Effect.isMessageProcessedLog
      = false :=
  ⟨(failed_delivery_records_error _ "P1" (messagingEvent "U1" "M1" "salut") (.str "U1")
      ⟨7, "P1", "tok"⟩ [] "Bonjour" "timeout of 10000ms exceeded"
      rfl rfl rfl rfl (by decide) (by decide) rfl).1,
   (failed_delivery_records_error _ "P1" (messagingEvent "U1" "M1" "salut") (.str "U1")
      ⟨7, "P1", "tok"⟩ [] "Bonjour" "timeout of 10000ms exceeded"
      rfl rfl rfl rfl (by decide) (by decide) rfl).2.2⟩

end FacebookManager

/-! ## The retry queue (`processQueuedEvents`) -/

namespace FacebookManager

/-- Every failure inside `processIncomingMessage` is caught there, unless
`messagingData` itself is `null` or `undefined`. -/
theorem processIncomingMessage_thrown_none (env : Env) (pageId : String)
    (messagingData : JSVal) (h : messagingData.isNullish = false) :
    (processIncomingMessage env pageId messagingData).thrown = none := by
  unfold processIncomingMessage
  cases senderIdOf messagingData with
  | error message => simp [catchBlock_of_not_nullish _ _ _ _ _ h]
  | ok senderId =>
    simp only
    split
    · rfl
    · cases env.pages with
      | error message => simp [catchBlock_of_not_nullish _ _ _ _ _ h]
      | ok pages =>
        cases pages with
        | nil => rfl
        | cons page rest =>
          simp only [processWithPage]
          rcases resolve env page.user_id pageId (messageTextOf messagingData) with ⟨rd, fx⟩
          simp only
          cases rd.text with
          | none => rfl
          | some text =>
            simp only
            split
            · simp only [sendMessage]
              cases env.send with
              | error message => simp [catchBlock_of_not_nullish _ _ _ _ _ h]
              | ok u => rfl
            · rfl

/-- C10 fails as stated: a queued message whose delivery fails is marked
processed, with `retry_count` and `error_message` untouched. -/
theorem failed_delivery_marks_event_processed :
    (processQueuedEvent
        { jsonParse := fun _ => .ok (messagingEvent "U1" "M1" "Hi")
          message :=
            { pages := .ok [⟨7, "P1", "tok"⟩]
              senderName := some "Ann"
              rules := .ok [⟨1, "hi", "Hello!", 1, some "exact", false⟩]
              aiConfigs := .ok []
              provider := .error "unused"
              send := .error "timeout of 10000ms exceeded"
              historyInsert := .ok ()
              elapsed := 12 }
          markProcessed := .ok ()
          bumpRetry := .ok () }
        ⟨1, "P1", "message", "raw", false, none, 0, 100⟩).event
      = ⟨1, "P1", "message", "raw", true, none, 0, 100⟩ := by
  rfl

/-- C10, amended: one turn of the sweep loop on an event is one of two
transitions.  If the replay (parsing the payload, `processIncomingMessage`,
the update that marks the event) raises nothing, `processed` becomes true and
the other columns keep their values.  If it raises and the update of the
retry counter is accepted, `retry_count` grows by one, `error_message` becomes
the message raised and `processed` keeps its value.  A payload that is not
`null` never makes `processIncomingMessage` raise, so with a parsable payload
and an accepted update the replay succeeds whatever happens while resolving
or delivering. -/
theorem sweep_step_transition (env : SweepEnv) (event : QueuedEvent) :
    ((replay env event).1 = .ok () →
      (processQueuedEvent env event).event = { event with processed := true } ∧
      (processQueuedEvent env event).thrown = none) ∧
    (∀ message, (replay env event).1 = .error message → env.bumpRetry = .ok () →
      (processQueuedEvent env event).event =
        { event with retry_count := event.retry_count + 1, error_message := some message } ∧
      (processQueuedEvent env event).thrown = none) ∧
    (∀ rawData, env.jsonParse event.raw_data = .ok rawData → rawData.isNullish = false →
      env.markProcessed = .ok () → (replay env event).1 = .ok ()) := by
  refine ⟨?_, ?_, ?_⟩
  · intro h
    unfold processQueuedEvent
    rcases hr : replay env event with ⟨res, fx⟩
    rw [hr] at h
    simp only at h
    subst h
    exact ⟨rfl, rfl⟩
  · intro message h hretry
    unfold processQueuedEvent
    rcases hr : replay env event with ⟨res, fx⟩
    rw [hr] at h
    simp only at h
    subst h
    simp [hretry]
  · intro rawData hparse hnn hmark
    have hout : (if event.event_type = "message" then
          processIncomingMessage env.message event.page_id rawData
        else ({ effects := [], thrown := none } : Outcome)).thrown = none := by
      split
      · exact processIncomingMessage_thrown_none _ _ _ hnn
      · rfl
    unfold replay
    simp only [hparse]
    split
    · rename_i heq
      rw [hout] at heq
      cases heq
    · simp [hmark]

/-- Instance of C10: a payload that does not parse adds one to `retry_count`
and stores the parser message; a parsable one is marked processed. -/
theorem sweep_step_transition_witness :
    (processQueuedEvent
        { jsonParse := fun _ => .error "Unexpected end of JSON input"
          message :=
            { pages := .ok [], senderName := none, rules := .ok [], aiConfigs := .ok [],
              provider := .error "unused", send := .ok (), historyInsert := .ok (),
              elapsed := 0 }
          markProcessed := .ok ()
          bumpRetry := .ok () }
        ⟨1, "P1", "message", "", false, none, 2, 100⟩).event
      = ⟨1, "P1", "message", "", false, some "Unexpected end of JSON input", 3, 100⟩ :=
  ((sweep_step_transition
      { jsonParse := fun _ => .error "Unexpected end of JSON input"
        message :=
          { pages := .ok [], senderName := none, rules := .ok [], aiConfigs := .ok [],
            provider := .error "unused", send := .ok (), historyInsert := .ok (),
            elapsed := 0 }
        markProcessed := .ok ()
        bumpRetry := .ok () }
      ⟨1, "P1", "message", "", false, none, 2, 100⟩).2.1
    "Unexpected end of JSON input" rfl rfl).1

end FacebookManager

/-! ## The webhook endpoint -/

namespace Server

theorem getProp_error_iff (v : JSVal) (key : String) :
    (∃ message, v.getProp key = .error message) ↔ v.isNullish = true := by
  cases v <;> simp [JSVal.getProp, JSVal.isNullish]

theorem messagingOf_ok_iff (page : JSVal) :
    (∃ events, messagingOf page = .ok events) ↔
      ((page.getPropOpt "messaging").truthy = false ∨
        match page.getPropOpt "messaging" with
        | .arr _ => true
        | .str _ => true
        | _ => false) := by
  unfold messagingOf
  cases hm : page.getPropOpt "messaging" with
  | bool b => cases b <;> simp [JSVal.truthy, JSVal.iterate]
  | num k => by_cases hk : k = 0 <;> simp [JSVal.truthy, JSVal.iterate, hk]
  | str s => by_cases hs : s = "" <;> simp [JSVal.truthy, JSVal.iterate, hs]
  | undefined => simp [JSVal.truthy, JSVal.iterate]
  | null => simp [JSVal.truthy, JSVal.iterate]
  | arr items => simp [JSVal.truthy, JSVal.iterate]
  | obj fields => simp [JSVal.truthy, JSVal.iterate]

/-- The outer loop ends without an error exactly on a list of walkable
entries, whatever `processMessage` does. -/
theorem processEntries_ok_iff (env : Nat → Env) (entries : List JSVal) (n : Nat) :
    (processEntries env entries n).1 = .ok () ↔ entries.all entryWalkable = true := by
  induction entries generalizing n with
  | nil => simp [processEntries]
  | cons page rest ih =>
    unfold processEntries
    cases hid : page.getProp "id" with
    | error message =>
      have hn := (getProp_error_iff page "id").mp ⟨message, hid⟩
      simp [entryWalkable, hn]
    | ok pageId =>
      have hn : page.isNullish = false := by
        cases hp : page.isNullish with
        | false => rfl
        | true =>
          obtain ⟨message, hm⟩ := (getProp_error_iff page "id").mpr hp
          rw [hm] at hid
          cases hid
      cases hmsg : messagingOf page with
      | error message =>
        have hno : ¬ ∃ events, messagingOf page = .ok events := by
          rintro ⟨events, he⟩
          rw [he] at hmsg
          cases hmsg
        rw [messagingOf_ok_iff] at hno
        have : entryWalkable page = false := by
          unfold entryWalkable
          cases hm : page.getPropOpt "messaging" <;> simp_all
        simp [this]
      | ok events =>
        have hyes := (messagingOf_ok_iff page).mp ⟨events, hmsg⟩
        have : entryWalkable page = true := by
          unfold entryWalkable
          cases hm : page.getPropOpt "messaging" <;> simp_all
        simp [this, ih]

/-- C8 fails as stated: a request body without `entry` is answered with
status 500. -/
theorem webhook_body_without_entry_gets_500 :
    (webhookFacebook (fun _ => ⟨.ok [], .ok [], .ok [], .ok none, .ok ()⟩) (.obj [])).1
      = ⟨500, "Error"⟩ := by
  decide

/-- C8, amended: the handler answers 200 exactly for the bodies whose `entry`
is a list of entries it can walk (none `null`, each `messaging` missing or a
list), whatever happens inside the processing of the messages; for every
other body, such as one without `entry`, it answers 500. -/
theorem webhook_status (env : Nat → Env) (body : JSVal) :
    ((webhookFacebook env body).1 = ⟨200, "OK"⟩ ↔ bodyWalkable body = true) ∧
    ((webhookFacebook env body).1 = ⟨500, "Error"⟩ ↔ bodyWalkable body = false) := by
  have key : ∀ entries : List JSVal, entriesOf body = .ok entries →
      (((webhookFacebook env body).1 = ⟨200, "OK"⟩ ↔ entries.all entryWalkable = true) ∧
       ((webhookFacebook env body).1 = ⟨500, "Error"⟩ ↔ entries.all entryWalkable = false)) := by
    intro entries he
    have hiff := processEntries_ok_iff env entries 0
    unfold webhookFacebook
    rw [he]
    simp only
    rcases hp : processEntries env entries 0 with ⟨res, fx⟩
    rw [hp] at hiff
    cases res with
    | ok u =>
      have hall := hiff.mp rfl
      simp [hall]
    | error message =>
      have hall : entries.all entryWalkable = false := by
        cases hq : entries.all entryWalkable with
        | false => rfl
        | true => exact absurd (hiff.mpr hq) (by simp)
      simp [hall]
  cases body with
  | obj fields =>
    cases hentry : (fields.lookup "entry").getD JSVal.undefined with
    | arr entries =>
      have he : entriesOf (.obj fields) = .ok entries := by
        simp [entriesOf, JSVal.getProp, hentry, JSVal.iterate]
      simpa [bodyWalkable, hentry] using key entries he
    | str s =>
      have he : entriesOf (.obj fields) =
          .ok (s.data.map (fun c => JSVal.str (String.singleton c))) := by
        simp [entriesOf, JSVal.getProp, hentry, JSVal.iterate]
      have hall : (s.data.map (fun c => JSVal.str (String.singleton c))).all entryWalkable
          = true := by
        simp [List.all_map, entryWalkable, JSVal.isNullish, JSVal.getPropOpt, JSVal.truthy]
      simpa [bodyWalkable, hentry, hall] using key _ he
    | undefined =>
      simp [webhookFacebook, entriesOf, JSVal.getProp, hentry, JSVal.iterate, bodyWalkable]
    | null =>
      simp [webhookFacebook, entriesOf, JSVal.getProp, hentry, JSVal.iterate, bodyWalkable]
    | bool b =>
      simp [webhookFacebook, entriesOf, JSVal.getProp, hentry, JSVal.iterate, bodyWalkable]
    | num k =>
      simp [webhookFacebook, entriesOf, JSVal.getProp, hentry, JSVal.iterate, bodyWalkable]
    | obj fs =>
      simp [webhookFacebook, entriesOf, JSVal.getProp, hentry, JSVal.iterate, bodyWalkable]
  | undefined => simp [webhookFacebook, entriesOf, JSVal.getProp, JSVal.iterate, bodyWalkable]
  | null => simp [webhookFacebook, entriesOf, JSVal.getProp, JSVal.iterate, bodyWalkable]
  | bool b => simp [webhookFacebook, entriesOf, JSVal.getProp, JSVal.iterate, bodyWalkable]
  | num k => simp [webhookFacebook, entriesOf, JSVal.getProp, JSVal.iterate, bodyWalkable]
  | str s => simp [webhookFacebook, entriesOf, JSVal.getProp, JSVal.iterate, bodyWalkable]
  | arr items => simp [webhookFacebook, entriesOf, JSVal.getProp, JSVal.iterate, bodyWalkable]

end Server

/-! ## Skipped events and the fallback match type -/

namespace FacebookManager

/-- C13: for a messaging event with a sender whose message text or message id
is absent or empty, `processIncomingMessage` does nothing: no query, no send,
no history row, no log, no error. -/
theorem message_without_text_or_id_skipped (env : Env) (pageId : String)
    (messagingData senderId : JSVal)
    (hsender : senderIdOf messagingData = .ok senderId)
    (hmissing : (messageTextOf messagingData).truthy = false ∨
      (messageIdOf messagingData).truthy = false) :
    processIncomingMessage env pageId messagingData = { effects := [], thrown := none } := by
  rcases hmissing with h | h <;> simp [processIncomingMessage, hsender, h]

/-- Instance of C13: an event without `message`, an event with an empty
text, and an event without `mid`. -/
theorem message_without_text_or_id_skipped_witness :
    (processIncomingMessage
        { pages := .ok [⟨7, "P1", "tok"⟩], senderName := some "Ann", rules := .ok [],
          aiConfigs := .ok [], provider := .ok "unused", send := .ok (),
          historyInsert := .ok (), elapsed := 1 }
        "P1" (.obj [("sender", .obj [("id", .str "U1")])])).effects = [] ∧
    (processIncomingMessage
        { pages := .ok [⟨7, "P1", "tok"⟩], senderName := some "Ann", rules := .ok [],
          aiConfigs := .ok [], provider := .ok "unused", send := .ok (),
          historyInsert := .ok (), elapsed := 1 }
        "P1" (messagingEvent "U1" "M1" "")).effects = [] ∧
    (processIncomingMessage
        { pages := .ok [⟨7, "P1", "tok"⟩], senderName := some "Ann", rules := .ok [],
          aiConfigs := .ok [], provider := .ok "unused", send := .ok (),
          historyInsert := .ok (), elapsed := 1 }
        "P1" (.obj [("sender", .obj [("id", .str "U1")]),
                    ("message", .obj [("text", .str "Hi")])])).thrown = none :=
  ⟨congrArg Outcome.effects
      (message_without_text_or_id_skipped _ "P1" (.obj [("sender", .obj [("id", .str "U1")])])
        (.str "U1") rfl (Or.inl rfl)),
   congrArg Outcome.effects
      (message_without_text_or_id_skipped _ "P1" (messagingEvent "U1" "M1" "") (.str "U1")
        rfl (Or.inl rfl)),
   congrArg Outcome.thrown
      (message_without_text_or_id_skipped _ "P1"
        (.obj [("sender", .obj [("id", .str "U1")]), ("message", .obj [("text", .str "Hi")])])
        (.str "U1") rfl (Or.inr rfl))⟩

end FacebookManager

/-! ## The prompt builder and the generation parameters -/

theorem data_suffix_of_append (a b : String) : b.data <:+ (a ++ b).data := by
  rw [String.data_append]
  exact List.suffix_append _ _

namespace OpenAIProvider

theorem toneClause_ite (tone : Option String) :
    PromptSpec.toneClause tone =
      (if tone = some "professional" then "Utilise un ton professionnel et courtois. "
       else if tone = some "friendly" then "Sois amical et chaleureux dans tes réponses. "
       else if tone = some "humorous" then
         "Utilise de l\x27humour approprié et sois décontracté. "
       else if tone = some "formal" then "Maintiens un ton formel et respectueux. "
       else "Sois naturel et adapte-toi au contexte. ") := by
  unfold PromptSpec.toneClause
  split <;> simp_all [PromptSpec.neutralToneClause]

theorem styleClause_ite (style : Option String) :
    PromptSpec.styleClause style =
      (if style = some "short" then "Garde tes réponses courtes et concises (max 50 mots). "
       else if style = some "medium" then
         "Utilise des réponses de longueur moyenne (50-150 mots). "
       else if style = some "long" then
         "Tu peux donner des réponses détaillées si nécessaire. "
       else "") := by
  unfold PromptSpec.styleClause
  split <;> simp_all

theorem tone_step (tone : Option String) (p : String) :
    (if tone = some "professional" then p ++ "Utilise un ton professionnel et courtois. "
     else if tone = some "friendly" then p ++ "Sois amical et chaleureux dans tes réponses. "
     else if tone = some "humorous" then
       p ++ "Utilise de l\x27humour approprié et sois décontracté. "
     else if tone = some "formal" then p ++ "Maintiens un ton formel et respectueux. "
     else p ++ "Sois naturel et adapte-toi au contexte. ")
      = p ++ PromptSpec.toneClause tone := by
  rw [toneClause_ite]
  split_ifs <;> rfl

theorem style_step (style : Option String) (p : String) :
    (if style = some "short" then
       p ++ "Garde tes réponses courtes et concises (max 50 mots). "
     else if style = some "medium" then
       p ++ "Utilise des réponses de longueur moyenne (50-150 mots). "
     else if style = some "long" then
       p ++ "Tu peux donner des réponses détaillées si nécessaire. "
     else p)
      = p ++ PromptSpec.styleClause style := by
  rw [styleClause_ite]
  split_ifs <;> simp

theorem instructions_step (instructions : Option String) (p : String) :
    (if textTruthy instructions then
       p ++ ("Instructions spéciales: " ++ instructions.getD "" ++ " ")
     else p)
      = p ++ PromptSpec.instructionsClause instructions := by
  cases instructions with
  | none => simp [textTruthy, PromptSpec.instructionsClause]
  | some text =>
    by_cases h : text = "" <;> simp [textTruthy, PromptSpec.instructionsClause, h]

theorem language_step (language : Option String) :
    ("Réponds toujours en " ++
        (if (if textTruthy language then language.getD "" else "fr") = "fr" then "français"
         else "anglais") ++ ".")
      = (if language = some "fr" ∨ language = none ∨ language = some "" then
          PromptSpec.frenchDirective else PromptSpec.englishDirective) := by
  cases language with
  | none => simp [textTruthy, PromptSpec.frenchDirective]
  | some text =>
    by_cases h : text = ""
    · subst h
      simp [textTruthy, PromptSpec.frenchDirective]
    · by_cases h2 : text = "fr"
      · subst h2
        simp [textTruthy, PromptSpec.frenchDirective]
      · simp [textTruthy, h, h2, PromptSpec.englishDirective]

/-- The prompt is the preamble, the tone clause, the style clause, the
instructions part and one of the two language directives, in this order. -/
theorem buildSystemPrompt_parts (config : AIConfig) :
    buildSystemPrompt config =
      PromptSpec.rolePreamble ++ PromptSpec.toneClause config.tone ++
        PromptSpec.styleClause config.style ++
        PromptSpec.instructionsClause config.instructions ++
        (if config.language = some "fr" ∨ config.language = none ∨ config.language = some ""
          then PromptSpec.frenchDirective else PromptSpec.englishDirective) := by
  unfold buildSystemPrompt
  simp only [tone_step, style_step, instructions_step, language_step]
  rfl

end OpenAIProvider

/-- C15: the system prompt is, in this order, the role preamble, the tone
clause (the neutral clause for any tone other than the four known ones), the
style clause (nothing for any style other than the three known ones), the
instructions part (the label and the text as given when there is a text,
nothing when it is absent or empty) and a language directive, which ends the
prompt. -/
theorem buildSystemPrompt_structure (config : AIConfig) :
    (∃ directive,
      (directive = PromptSpec.frenchDirective ∨ directive = PromptSpec.englishDirective) ∧
      OpenAIProvider.buildSystemPrompt config =
        PromptSpec.rolePreamble ++ PromptSpec.toneClause config.tone ++
          PromptSpec.styleClause config.style ++
          PromptSpec.instructionsClause config.instructions ++ directive ∧
      directive.data <:+ (OpenAIProvider.buildSystemPrompt config).data) ∧
    (config.tone ≠ some "professional" → config.tone ≠ some "friendly" →
      config.tone ≠ some "humorous" → config.tone ≠ some "formal" →
      PromptSpec.toneClause config.tone = PromptSpec.neutralToneClause) ∧
    (config.style ≠ some "short" → config.style ≠ some "medium" →
      config.style ≠ some "long" → PromptSpec.styleClause config.style = "") ∧
    (∀ text, config.instructions = some text → text ≠ "" →
      PromptSpec.instructionsClause config.instructions =
        "Instructions spéciales: " ++ text ++ " ") ∧
    (config.instructions = none ∨ config.instructions = some "" →
      PromptSpec.instructionsClause config.instructions = "") := by
  refine ⟨?_, ?_, ?_, ?_, ?_⟩
  · refine ⟨_, ?_, OpenAIProvider.buildSystemPrompt_parts config, ?_⟩
    · split_ifs
      · exact Or.inl rfl
      · exact Or.inr rfl
    · rw [OpenAIProvider.buildSystemPrompt_parts]
      exact data_suffix_of_append _ _
  · intro h1 h2 h3 h4
    rw [OpenAIProvider.toneClause_ite]
    simp [h1, h2, h3, h4, PromptSpec.neutralToneClause]
  · intro h1 h2 h3
    rw [OpenAIProvider.styleClause_ite]
    simp [h1, h2, h3]
  · intro text h hne
    simp [h, PromptSpec.instructionsClause, hne]
  · rintro (h | h) <;> simp [h, PromptSpec.instructionsClause]

/-- Instance of C15: an unknown tone, the style "short" and instructions; the
whole prompt is spelled out. -/
theorem buildSystemPrompt_structure_witness :
    PromptSpec.toneClause (some "sarcastic") = PromptSpec.neutralToneClause ∧
    PromptSpec.instructionsClause (some "Tutoie le client.") =
      "Instructions spéciales: Tutoie le client. " ∧
    OpenAIProvider.buildSystemPrompt
        ⟨"openai", "gpt-4", "key", none, none, some "Tutoie le client.", some "sarcastic",
          some "short", some "en", true⟩
      = "Tu es un assistant de réseaux sociaux pour une page Facebook. Sois naturel et adapte-toi au contexte. Garde tes réponses courtes et concises (max 50 mots). Instructions spéciales: Tutoie le client. Réponds toujours en anglais." :=
  ⟨(buildSystemPrompt_structure
      ⟨"openai", "gpt-4", "key", none, none, some "Tutoie le client.", some "sarcastic",
        some "short", some "en", true⟩).2.1
      (by decide) (by decide) (by decide) (by decide),
   (buildSystemPrompt_structure
      ⟨"openai", "gpt-4", "key", none, none, some "Tutoie le client.", some "sarcastic",
        some "short", some "en", true⟩).2.2.2.1 "Tutoie le client." rfl (by decide),
   rfl⟩

/-- C16 fails as stated: with an absent language, and with an empty one, the
prompt asks for French. -/
theorem absent_language_asks_for_french :
    OpenAIProvider.buildSystemPrompt
        ⟨"openai", "gpt-4", "key", none, none, none, some "formal", none, none, true⟩
      = "Tu es un assistant de réseaux sociaux pour une page Facebook. Maintiens un ton formel et respectueux. Réponds toujours en français." ∧
    OpenAIProvider.buildSystemPrompt
        ⟨"openai", "gpt-4", "key", none, none, none, some "formal", none, some "", true⟩
      = "Tu es un assistant de réseaux sociaux pour une page Facebook. Maintiens un ton formel et respectueux. Réponds toujours en français." ∧
    PromptSpec.languageDirective none = "Réponds toujours en anglais." :=
  ⟨rfl, rfl, rfl⟩

/-- C16, amended: the prompt ends with the French directive when the language
is "fr", absent or empty, and with the English directive for every other
language. -/
theorem language_directive_of_prompt (config : AIConfig) :
    (config.language = some "fr" ∨ config.language = none ∨ config.language = some "" →
      PromptSpec.frenchDirective.data <:+ (OpenAIProvider.buildSystemPrompt config).data) ∧
    (¬ (config.language = some "fr" ∨ config.language = none ∨ config.language = some "") →
      PromptSpec.englishDirective.data <:+ (OpenAIProvider.buildSystemPrompt config).data) := by
  constructor
  · intro h
    rw [OpenAIProvider.buildSystemPrompt_parts, if_pos h]
    exact data_suffix_of_append _ _
  · intro h
    rw [OpenAIProvider.buildSystemPrompt_parts, if_neg h]
    exact data_suffix_of_append _ _

/-- Instance of C16: the language "en" asks for English, the language "fr"
for French. -/
theorem language_directive_of_prompt_witness :
    PromptSpec.englishDirective.data <:+
      (OpenAIProvider.buildSystemPrompt
        ⟨"claude", "m", "key", none, none, none, none, none, some "en", true⟩).data ∧
    PromptSpec.frenchDirective.data <:+
      (OpenAIProvider.buildSystemPrompt
        ⟨"claude", "m", "key", none, none, none, none, none, some "fr", true⟩).data :=
  ⟨(language_directive_of_prompt
      ⟨"claude", "m", "key", none, none, none, none, none, some "en", true⟩).2 (by decide),
   (language_directive_of_prompt
      ⟨"claude", "m", "key", none, none, none, none, none, some "fr", true⟩).1 (by decide)⟩

/-- C17: the Mistral and Claude builders return the text of the OpenAI
builder, the three generation requests carry that same text, and equal
configs give equal prompts. -/
theorem buildSystemPrompt_shared (messageText : JSVal) (config config2 : AIConfig)
    (h : config = config2) :
    MistralProvider.buildSystemPrompt config = OpenAIProvider.buildSystemPrompt config ∧
    ClaudeProvider.buildSystemPrompt config = OpenAIProvider.buildSystemPrompt config ∧
    (MistralProvider.generationRequest messageText config).system =
      (OpenAIProvider.generationRequest messageText config).system ∧
    (ClaudeProvider.generationRequest messageText config).system =
      (OpenAIProvider.generationRequest messageText config).system ∧
    OpenAIProvider.buildSystemPrompt config = OpenAIProvider.buildSystemPrompt config2 ∧
    MistralProvider.buildSystemPrompt config = MistralProvider.buildSystemPrompt config2 ∧
    ClaudeProvider.buildSystemPrompt config = ClaudeProvider.buildSystemPrompt config2 := by
  subst h
  exact ⟨rfl, rfl, rfl, rfl, rfl, rfl, rfl⟩

/-- Instance of C17: one config, the prompt of each provider. -/
theorem buildSystemPrompt_shared_witness :
    MistralProvider.buildSystemPrompt
        ⟨"mistral", "m", "key", none, none, none, some "friendly", some "long", some "fr", true⟩
      = "Tu es un assistant de réseaux sociaux pour une page Facebook. Sois amical et chaleureux dans tes réponses. Tu peux donner des réponses détaillées si nécessaire. Réponds toujours en français." ∧
    ClaudeProvider.buildSystemPrompt
        ⟨"mistral", "m", "key", none, none, none, some "friendly", some "long", some "fr", true⟩
      = OpenAIProvider.buildSystemPrompt
        ⟨"mistral", "m", "key", none, none, none, some "friendly", some "long", some "fr", true⟩ :=
  ⟨rfl,
   (buildSystemPrompt_shared (.str "Bonjour")
      ⟨"mistral", "m", "key", none, none, none, some "friendly", some "long", some "fr", true⟩
      ⟨"mistral", "m", "key", none, none, none, some "friendly", some "long", some "fr", true⟩
      rfl).2.1⟩

/-- C18, evaluated on the code: a config with temperature 0 and 256 tokens
gives, for each provider, a request with temperature 0.7 and 256 tokens. -/
theorem zero_temperature_replaced_by_default :
    (OpenAIProvider.generationRequest (.str "hi")
        ⟨"openai", "gpt-4", "key", some 0, some 256, none, none, none, none, true⟩).temperature
      = 0.7 ∧
    (MistralProvider.generationRequest (.str "hi")
        ⟨"mistral", "m", "key", some 0, some 256, none, none, none, none, true⟩).temperature
      = 0.7 ∧
    (ClaudeProvider.generationRequest (.str "hi")
        ⟨"claude", "m", "key", some 0, some 256, none, none, none, none, true⟩).temperature
      = 0.7 ∧
    (OpenAIProvider.generationRequest (.str "hi")
        ⟨"openai", "gpt-4", "key", some 0, some 256, none, none, none, none, true⟩).max_tokens
      = 256 := by
  simp [OpenAIProvider.generationRequest, MistralProvider.generationRequest,
    ClaudeProvider.generationRequest, temperatureParam, maxTokensParam]

/-! ## Failures of the history insert and unknown providers -/

namespace FacebookManager

/-- C19: when the INSERT of the history row fails and the delivery does not,
`processIncomingMessage` does not raise; the reply, if any, is sent as usual,
`saveMessageHistory` is called and writes nothing, and the
`message_processed` log event follows. -/
theorem failed_history_insert_swallowed (env : Env) (pageId : String)
    (messagingData senderId : JSVal) (page : Page) (rest : List Page) (message : String)
    (hsender : senderIdOf messagingData = .ok senderId)
    (htext : (messageTextOf messagingData).truthy = true)
    (hmid : (messageIdOf messagingData).truthy = true)
    (hpage : env.pages = .ok (page :: rest))
    (hsend : env.send = .ok ())
    (hfail : env.historyInsert = .error message) :
    (processIncomingMessage env pageId messagingData).thrown = none ∧
    (processIncomingMessage env pageId messagingData).effects =
      [Effect.dbSelectPage pageId, Effect.graphGetSenderName senderId page.access_token] ++
      (resolve env page.user_id pageId (messageTextOf messagingData)).2 ++
      (if textTruthy (resolve env page.user_id pageId (messageTextOf messagingData)).1.text
        then
          [Effect.sendMessage pageId senderId
            ((resolve env page.user_id pageId (messageTextOf messagingData)).1.text.getD "")
            page.access_token]
        else []) ++
      [Effect.saveMessageHistory
         { userId := some page.user_id
           pageId := pageId
           messageId := messageIdOf messagingData
           senderId := senderId
           senderName := env.senderName
           messageText := messageTextOf messagingData
           responseText :=
             (resolve env page.user_id pageId (messageTextOf messagingData)).1.text
           responseType :=
             (resolve env page.user_id pageId (messageTextOf messagingData)).1.type
           matchedKeyword :=
             (resolve env page.user_id pageId (messageTextOf messagingData)).1.matchedKeyword
           processingTime := env.elapsed
           errorMessage :=
             (resolve env page.user_id pageId (messageTextOf messagingData)).1.error }
         false,
       Effect.logEvent "message_processed" pageId
         (resolve env page.user_id pageId (messageTextOf messagingData)).1.type env.elapsed] := by
  rcases hres : resolve env page.user_id pageId (messageTextOf messagingData) with ⟨rd, fx⟩
  have hproc : processIncomingMessage env pageId messagingData =
      processWithPage env page pageId messagingData senderId (messageIdOf messagingData)
        (messageTextOf messagingData) := by
    simp [processIncomingMessage, hsender, htext, hmid, hpage]
  rw [hproc]
  unfold processWithPage
  rw [hres]
  cases htxt : rd.text with
  | none =>
    simp [htxt, textTruthy, recordAndLog, saveMessageHistory, logEvent, hfail, Except.isOk,
      Except.toBool]
  | some text =>
    by_cases hne : text = ""
    · simp [htxt, hne, textTruthy, recordAndLog, saveMessageHistory, logEvent, hfail,
        Except.isOk, Except.toBool]
    · simp [htxt, hne, textTruthy, sendMessage, hsend, recordAndLog, saveMessageHistory,
        logEvent, hfail, Except.isOk, Except.toBool]

/-- Instance of C19: the rule "hi" answers, the INSERT fails with a lost
connection; the reply is sent and the log event is emitted. -/
theorem failed_history_insert_swallowed_witness :
    (processIncomingMessage
        { pages := .ok [⟨7, "P1", "tok"⟩]
          senderName := some "Ann"
          rules := .ok [⟨1, "hi", "Hello!", 1, some "exact", false⟩]
          aiConfigs := .ok []
          provider := .error "unused"
          send := .ok ()
          historyInsert := .error "Connection lost"
          elapsed := 12 }
        "P1" (messagingEvent "U1" "M1" "Hi")).thrown = none ∧
    ((processIncomingMessage
        { pages := .ok [⟨7, "P1", "tok"⟩]
          senderName := some "Ann"
          rules := .ok [⟨1, "hi", "Hello!", 1, some "exact", false⟩]
          aiConfigs := .ok []
          provider := .error "unused"
          send := .ok ()
          historyInsert := .error "Connection lost"
          elapsed := 12 }
        "P1" (messagingEvent "U1" "M1" "Hi")).effects.any Effect.isSend = true ∧
     (processIncomingMessage
        { pages := .ok [⟨7, "P1", "tok"⟩]
          senderName := some "Ann"
          rules := .ok [⟨1, "hi", "Hello!", 1, some "exact", false⟩]
          aiConfigs := .ok []
          provider := .error "unused"
          send := .ok ()
          historyInsert := .error "Connection lost"
          elapsed := 12 }
        "P1" (messagingEvent "U1" "M1" "Hi")).effects.any Effect.isMessageProcessedLog
       = true) :=
  ⟨(failed_history_insert_swallowed _ "P1" (messagingEvent "U1" "M1" "Hi") (.str "U1")
      ⟨7, "P1", "tok"⟩ [] "Connection lost" rfl rfl rfl rfl rfl rfl).1,
   ⟨rfl, rfl⟩⟩

/-- C20, evaluated on the code: for the provider name "constructor" the lookup
finds the inherited property of the table of providers, so the error is the
one of the failed method call, not the one for an unsupported provider; no
provider is called and `tryAIResponse` returns a null text with that
error. -/
theorem inherited_provider_name_not_reported_unsupported :
    AIProviderManager.generateResponse (.ok "unused") (.str "hello")
        ⟨"constructor", "m", "key", none, none, none, none, none, none, true⟩
      = (.error "Erreur constructor: provider.generateResponse is not a function", []) ∧
    tryAIResponse
        { pages := .ok [⟨7, "P1", "tok"⟩]
          senderName := none
          rules := .ok []
          aiConfigs :=
            .ok [⟨"constructor", "m", "key", none, none, none, none, none, none, true⟩]
          provider := .ok "unused"
          send := .ok ()
          historyInsert := .ok ()
          elapsed := 3 }
        7 "P1" (.str "hello")
      = (some { text := none
                error :=
                  some "Erreur constructor: provider.generateResponse is not a function" },
         [Effect.dbSelectAIConfigs 7 "P1"]) :=
  ⟨rfl, rfl⟩

end FacebookManager

/-! ## The sweep over the table -/

namespace FacebookManager

theorem mem_selectPending {table : List QueuedEvent} {event : QueuedEvent}
    (h : event ∈ selectPending table) : event ∈ table ∧ isPending event = true := by
  unfold selectPending at h
  have h1 := List.mem_of_mem_take h
  rw [(List.perm_insertionSort createdBefore _).mem_iff] at h1
  exact List.mem_filter.mp h1

theorem selectPending_length (table : List QueuedEvent) : (selectPending table).length ≤ 10 := by
  unfold selectPending
  exact List.length_take_le _ _

theorem selectPending_sorted (table : List QueuedEvent) :
    (selectPending table).Pairwise createdBefore := by
  unfold selectPending
  exact List.Pairwise.sublist (List.take_sublist _ _) (List.sorted_insertionSort createdBefore _)

theorem selectPending_ids_nodup {table : List QueuedEvent}
    (h : (table.map (fun row => row.id)).Nodup) :
    ((selectPending table).map (fun row => row.id)).Nodup := by
  unfold selectPending
  have h1 : ((table.filter isPending).map (fun row => row.id)).Nodup :=
    List.Nodup.sublist (List.Sublist.map _ (List.filter_sublist _)) h
  have h2 : (((table.filter isPending).insertionSort createdBefore).map
      (fun row => row.id)).Nodup :=
    ((List.perm_insertionSort createdBefore _).map _).nodup_iff.mpr h1
  exact List.Nodup.sublist (List.Sublist.map _ (List.take_sublist _ _)) h2

theorem rowStep_refl (ids : List Nat) (row : QueuedEvent) : RowStep ids row row :=
  ⟨rfl, fun h => h, le_refl _, by omega, fun _ => rfl⟩

theorem rowStep_compose {id : Nat} {rest : List Nat} {u g : QueuedEvent → QueuedEvent}
    (hid : id ∉ rest) (hu : ∀ row, RowStep [id] row (u row))
    (hg : ∀ row, RowStep rest row (g row)) (row : QueuedEvent) :
    RowStep (id :: rest) row (g (u row)) := by
  by_cases h : row.id = id
  · have hkeep : g (u row) = u row := by
      apply (hg (u row)).2.2.2.2
      rw [(hu row).1, h]
      exact hid
    rw [hkeep]
    obtain ⟨h1, h2, h3, h4, _⟩ := hu row
    exact ⟨h1, h2, h3, h4, fun hn => absurd (h ▸ List.mem_cons_self id rest) hn⟩
  · have hsame : u row = row := (hu row).2.2.2.2 (by simpa using h)
    rw [hsame]
    obtain ⟨h1, h2, h3, h4, h5⟩ := hg row
    exact ⟨h1, h2, h3, h4, fun hn => h5 (fun hin => hn (List.mem_cons_of_mem _ hin))⟩

theorem rowStep_markProcessed (id : Nat) (row : QueuedEvent) :
    RowStep [id] row (if row.id = id then { row with processed := true } else row) := by
  by_cases h : row.id = id
  · simp [h, RowStep]
  · simp [h, RowStep]

theorem rowStep_bumpRetry (id : Nat) (message : String) (row : QueuedEvent) :
    RowStep [id] row
      (if row.id = id then
        { row with retry_count := row.retry_count + 1, error_message := some message }
       else row) := by
  by_cases h : row.id = id
  · simp [h, RowStep]
  · simp [h, RowStep]

/-- The loop acts row by row: the table after it is the image of the table
before it under a map that is a `RowStep` for the selected keys. -/
theorem sweepLoop_rows (turn : Nat → SweepEnv) (selected : List QueuedEvent)
    (hnodup : (selected.map (fun row => row.id)).Nodup) (table : List QueuedEvent) :
    ∃ f : QueuedEvent → QueuedEvent,
      (sweepLoop turn selected table).table = table.map f ∧
      ∀ row, RowStep (selected.map (fun row => row.id)) row (f row) := by
  induction selected generalizing table with
  | nil => exact ⟨id, by simp [sweepLoop], fun row => rowStep_refl _ row⟩
  | cons event rest ih =>
    rw [List.map_cons, List.nodup_cons] at hnodup
    unfold sweepLoop
    rcases hr : replay (turn event.id) event with ⟨res, fx⟩
    cases res with
    | ok u =>
      obtain ⟨g, hg1, hg2⟩ := ih hnodup.2 (applyMarkProcessed table event.id)
      refine ⟨fun row =>
        g (if row.id = event.id then { row with processed := true } else row), ?_, ?_⟩
      · show (sweepLoop turn rest (applyMarkProcessed table event.id)).table = _
        rw [hg1, applyMarkProcessed, List.map_map]
        rfl
      · intro row
        exact rowStep_compose hnodup.1 (rowStep_markProcessed event.id) hg2 row
    | error message =>
      cases hb : (turn event.id).bumpRetry with
      | ok u =>
        obtain ⟨g, hg1, hg2⟩ := ih hnodup.2 (applyBumpRetry table event.id message)
        refine ⟨fun row =>
          g (if row.id = event.id then
              { row with retry_count := row.retry_count + 1, error_message := some message }
             else row), ?_, ?_⟩
        · show (sweepLoop turn rest (applyBumpRetry table event.id message)).table = _
          rw [hg1, applyBumpRetry, List.map_map]
          rfl
        · intro row
          exact rowStep_compose hnodup.1 (rowStep_bumpRetry event.id message) hg2 row
      | error message2 =>
        exact ⟨id, by simp, fun row => rowStep_refl _ row⟩

/-- A sweep acts row by row, on the keys of the selected events only. -/
theorem processQueuedEvents_rows (world : SweepWorld) (table : List QueuedEvent)
    (hnodup : (table.map (fun row => row.id)).Nodup) :
    ∃ f : QueuedEvent → QueuedEvent,
      (processQueuedEvents world table).table = table.map f ∧
      ∀ row, RowStep ((selectPending table).map (fun row => row.id)) row (f row) := by
  unfold processQueuedEvents
  cases world.select with
  | error message => exact ⟨id, by simp, fun row => rowStep_refl _ row⟩
  | ok u => exact sweepLoop_rows world.turn _ (selectPending_ids_nodup hnodup) table

theorem sweepLoop_replayed (turn : Nat → SweepEnv) (selected table : List QueuedEvent) :
    (sweepLoop turn selected table).replayed <+: selected := by
  induction selected generalizing table with
  | nil => simp [sweepLoop]
  | cons event rest ih =>
    unfold sweepLoop
    rcases hr : replay (turn event.id) event with ⟨res, fx⟩
    cases res with
    | ok u =>
      simp only
      exact (List.prefix_cons_inj event).mpr (ih _)
    | error message =>
      cases hb : (turn event.id).bumpRetry with
      | ok u =>
        simp only
        exact (List.prefix_cons_inj event).mpr (ih _)
      | error message2 =>
        simp only
        exact (List.prefix_cons_inj event).mpr (List.nil_prefix)

/-- The events replayed by a sweep are the first rows of the selection. -/
theorem processQueuedEvents_replayed (world : SweepWorld) (table : List QueuedEvent) :
    (processQueuedEvents world table).replayed <+: selectPending table := by
  unfold processQueuedEvents
  cases world.select with
  | error message => exact List.nil_prefix
  | ok u => exact sweepLoop_replayed _ _ _

/-- On a table that holds the selected event alone, the loop leaves the row
that `processQueuedEvent` computes for it. -/
theorem sweepLoop_single (turn : Nat → SweepEnv) (event : QueuedEvent) :
    (sweepLoop turn [event] [event]).table = [(processQueuedEvent (turn event.id) event).event] := by
  unfold sweepLoop processQueuedEvent
  rcases hr : replay (turn event.id) event with ⟨res, fx⟩
  cases res with
  | ok u => simp [sweepLoop, applyMarkProcessed]
  | error message =>
    cases hb : (turn event.id).bumpRetry with
    | ok u => simp [sweepLoop, applyBumpRetry]
    | error message2 => simp

end FacebookManager

namespace FacebookManager

theorem isPending_iff (event : QueuedEvent) :
    isPending event = true ↔ event.processed = false ∧ event.retry_count < 3 := by
  simp [isPending]

/-- On every reachable table the keys are distinct and every `retry_count`
lies between 0 and 3. -/
theorem reachable_invariant {table : List QueuedEvent} (h : Reachable table) :
    (table.map (fun row => row.id)).Nodup ∧
      ∀ row ∈ table, 0 ≤ row.retry_count ∧ row.retry_count ≤ 3 := by
  induction h with
  | empty => simp
  | insert table outcome id created_at pageId eventType rawData _ hfresh ih =>
    cases outcome with
    | error message => simpa [saveWebhookEvent] using ih
    | ok u =>
      simp only [saveWebhookEvent]
      refine ⟨?_, ?_⟩
      · rw [List.map_append, List.nodup_append]
        refine ⟨ih.1, by simp, ?_⟩
        intro a ha hb
        simp only [List.map_cons, List.map_nil, List.mem_singleton] at hb
        obtain ⟨row, hrow, hid⟩ := List.mem_map.mp ha
        exact hfresh row hrow (hid.trans hb)
      · intro row hrow
        rcases List.mem_append.mp hrow with hin | hin
        · exact ih.2 row hin
        · simp only [List.mem_singleton] at hin
          subst hin
          simp
  | sweep table world _ ih =>
    obtain ⟨f, hf1, hf2⟩ := processQueuedEvents_rows world table ih.1
    rw [hf1]
    refine ⟨?_, ?_⟩
    · rw [List.map_map]
      have : ((fun row : QueuedEvent => row.id) ∘ f) = fun row => row.id := by
        funext row
        exact (hf2 row).1
      rw [this]
      exact ih.1
    · intro row' hrow'
      obtain ⟨row, hrow, rfl⟩ := List.mem_map.mp hrow'
      obtain ⟨_, _, hge, hle, hkeep⟩ := hf2 row
      have hb := ih.2 row hrow
      by_cases hsel : row.id ∈ (selectPending table).map (fun row => row.id)
      · obtain ⟨event, hev, hid⟩ := List.mem_map.mp hsel
        have hmem := mem_selectPending hev
        have heq : event = row :=
          List.inj_on_of_nodup_map ih.1 hmem.1 hrow hid
        have hp := (isPending_iff event).mp hmem.2
        rw [heq] at hp
        omega
      · rw [hkeep hsel]
        exact hb

/-- C11: on every table built from inserted events (which start with
`retry_count` 0) by sweeps run one at a time, each `retry_count` lies between
0 and 3, and one more sweep keeps every event, never lowers its
`retry_count` and raises it by one at most. -/
theorem retry_count_bounded_and_monotone (table : List QueuedEvent) (h : Reachable table) :
    (∀ row ∈ table, 0 ≤ row.retry_count ∧ row.retry_count ≤ 3) ∧
    ∀ world : SweepWorld,
      List.Forall₂ RetryStep table (processQueuedEvents world table).table := by
  have hinv := reachable_invariant h
  refine ⟨hinv.2, ?_⟩
  intro world
  obtain ⟨f, hf1, hf2⟩ := processQueuedEvents_rows world table hinv.1
  rw [hf1, List.forall₂_map_right_iff, List.forall₂_same]
  intro row _
  obtain ⟨h1, _, h3, h4, _⟩ := hf2 row
  exact ⟨h1, h3, h4⟩

/-- Instance of C11: one event is inserted, then two sweeps fail to parse
its payload; its `retry_count` is 2. -/
theorem retry_count_bounded_and_monotone_witness :
    (∀ row ∈
        (processQueuedEvents
          ⟨.ok (), fun _ =>
            ⟨fun _ => .error "Unexpected token", ⟨.ok [], none, .ok [], .ok [], .ok "", .ok (),
              .ok (), 0⟩, .ok (), .ok ()⟩⟩
          (processQueuedEvents
            ⟨.ok (), fun _ =>
              ⟨fun _ => .error "Unexpected token", ⟨.ok [], none, .ok [], .ok [], .ok "",
                .ok (), .ok (), 0⟩, .ok (), .ok ()⟩⟩
            (saveWebhookEvent (.ok ()) 1 100 "P1" "message" "not json" [])).table).table,
        0 ≤ row.retry_count ∧ row.retry_count ≤ 3) ∧
    (processQueuedEvents
        ⟨.ok (), fun _ =>
          ⟨fun _ => .error "Unexpected token", ⟨.ok [], none, .ok [], .ok [], .ok "", .ok (),
            .ok (), 0⟩, .ok (), .ok ()⟩⟩
        (processQueuedEvents
          ⟨.ok (), fun _ =>
            ⟨fun _ => .error "Unexpected token", ⟨.ok [], none, .ok [], .ok [], .ok "",
              .ok (), .ok (), 0⟩, .ok (), .ok ()⟩⟩
          (saveWebhookEvent (.ok ()) 1 100 "P1" "message" "not json" [])).table).table
      = [⟨1, "P1", "message", "not json", false, some "Unexpected token", 2, 100⟩] :=
  ⟨(retry_count_bounded_and_monotone _
      (Reachable.sweep _ _
        (Reachable.sweep _ _
          (Reachable.insert [] (.ok ()) 1 100 "P1" "message" "not json" Reachable.empty
            (by simp))))).1,
   by decide⟩

end FacebookManager

namespace FacebookManager

/-- A run of sweeps acts row by row: keys are kept, `processed` is never
reset and `retry_count` never goes down. -/
theorem runSweeps_rows (earlier : List SweepWorld) (start : List QueuedEvent)
    (hnodup : (start.map (fun row => row.id)).Nodup) :
    ∃ f : QueuedEvent → QueuedEvent,
      runSweeps earlier start = start.map f ∧
      ∀ row, (f row).id = row.id ∧ (row.processed = true → (f row).processed = true) ∧
        row.retry_count ≤ (f row).retry_count := by
  induction earlier generalizing start with
  | nil => exact ⟨id, by simp [runSweeps], fun row => ⟨rfl, fun h => h, le_refl _⟩⟩
  | cons world rest ih =>
    obtain ⟨f, hf1, hf2⟩ := processQueuedEvents_rows world start hnodup
    have hnodup2 : (((processQueuedEvents world start).table).map (fun row => row.id)).Nodup := by
      rw [hf1, List.map_map]
      have : ((fun row : QueuedEvent => row.id) ∘ f) = fun row => row.id := by
        funext row
        exact (hf2 row).1
      rw [this]
      exact hnodup
    obtain ⟨g, hg1, hg2⟩ := ih _ hnodup2
    refine ⟨fun row => g (f row), ?_, ?_⟩
    · show runSweeps rest (processQueuedEvents world start).table = _
      rw [hg1, hf1, List.map_map]
      rfl
    · intro row
      obtain ⟨a1, a2, a3, _, _⟩ := hf2 row
      obtain ⟨b1, b2, b3⟩ := hg2 (f row)
      exact ⟨b1.trans a1, fun h => b2 (a2 h), le_trans a3 b3⟩

/-- C12: a sweep, run after any number of earlier sweeps, replays at most ten
events, each of them a row of the table that is unprocessed with
`retry_count` below 3 when selected, in ascending order of creation; and it
replays no event that was processed, or had `retry_count` at 3, before the
earlier sweeps began. -/
theorem sweep_replays_pending_batch (world : SweepWorld) (earlier : List SweepWorld)
    (start : List QueuedEvent) :
    (processQueuedEvents world (runSweeps earlier start)).replayed.length ≤ 10 ∧
    (∀ event ∈ (processQueuedEvents world (runSweeps earlier start)).replayed,
      event ∈ runSweeps earlier start ∧ event.processed = false ∧ event.retry_count < 3) ∧
    (processQueuedEvents world (runSweeps earlier start)).replayed.Pairwise createdBefore ∧
    ((start.map (fun row => row.id)).Nodup →
      ∀ done ∈ start, done.processed = true ∨ 3 ≤ done.retry_count →
        ∀ event ∈ (processQueuedEvents world (runSweeps earlier start)).replayed,
          event.id ≠ done.id) := by
  have hpre := processQueuedEvents_replayed world (runSweeps earlier start)
  have hsel : ∀ event ∈ (processQueuedEvents world (runSweeps earlier start)).replayed,
      event ∈ runSweeps earlier start ∧ event.processed = false ∧ event.retry_count < 3 := by
    intro event hev
    have hmem := mem_selectPending (hpre.subset hev)
    exact ⟨hmem.1, (isPending_iff event).mp hmem.2⟩
  refine ⟨?_, hsel, ?_, ?_⟩
  · exact le_trans hpre.length_le (selectPending_length _)
  · exact List.Pairwise.sublist hpre.sublist (selectPending_sorted _)
  · intro hnodup done hdone hstate event hev heq
    obtain ⟨f, hf1, hf2⟩ := runSweeps_rows earlier start hnodup
    obtain ⟨hin, hproc, hretry⟩ := hsel event hev
    rw [hf1] at hin
    obtain ⟨row, hrow, rfl⟩ := List.mem_map.mp hin
    obtain ⟨h1, h2, h3⟩ := hf2 row
    have hrd : row = done :=
      List.inj_on_of_nodup_map hnodup hrow hdone (h1.symm.trans heq)
    subst hrd
    rcases hstate with hp | hr
    · rw [h2 hp] at hproc
      cases hproc
    · omega

/-- Instance of C12: of three events, one processed and one with
`retry_count` 3, a second sweep replays the pending one only. -/
theorem sweep_replays_pending_batch_witness :
    (processQueuedEvents
        ⟨.ok (), fun _ =>
          ⟨fun _ => .error "Unexpected token", ⟨.ok [], none, .ok [], .ok [], .ok "", .ok (),
            .ok (), 0⟩, .ok (), .ok ()⟩⟩
        (runSweeps
          [⟨.ok (), fun _ =>
            ⟨fun _ => .error "Unexpected token", ⟨.ok [], none, .ok [], .ok [], .ok "",
              .ok (), .ok (), 0⟩, .ok (), .ok ()⟩⟩]
          [⟨1, "P1", "message", "a", true, none, 0, 100⟩,
           ⟨2, "P1", "message", "b", false, some "Unexpected token", 3, 101⟩,
           ⟨3, "P1", "message", "c", false, none, 0, 102⟩])).replayed
      = [⟨3, "P1", "message", "c", false, some "Unexpected token", 1, 102⟩] ∧
    ∀ event ∈
        (processQueuedEvents
          ⟨.ok (), fun _ =>
            ⟨fun _ => .error "Unexpected token", ⟨.ok [], none, .ok [], .ok [], .ok "",
              .ok (), .ok (), 0⟩, .ok (), .ok ()⟩⟩
          (runSweeps
            [⟨.ok (), fun _ =>
              ⟨fun _ => .error "Unexpected token", ⟨.ok [], none, .ok [], .ok [], .ok "",
                .ok (), .ok (), 0⟩, .ok (), .ok ()⟩⟩]
            [⟨1, "P1", "message", "a", true, none, 0, 100⟩,
             ⟨2, "P1", "message", "b", false, some "Unexpected token", 3, 101⟩,
             ⟨3, "P1", "message", "c", false, none, 0, 102⟩])).replayed,
      event.id ≠ 2 :=
  ⟨by decide,
   (sweep_replays_pending_batch _ _ _).2.2.2 (by decide)
     ⟨2, "P1", "message", "b", false, some "Unexpected token", 3, 101⟩ (by decide)
     (Or.inr (by decide))⟩

end FacebookManager

/-! ## The model catalogs -/

/-- C21, evaluated on the code: for the name "constructor" the lookup finds an
inherited property and the call of its missing `getAvailableModels` method
raises; "gemini" gives the empty list and "OpenAI" the catalog of OpenAI. -/
theorem getAvailableModels_raises_on_inherited_name :
    AIProviderManager.getAvailableModels "constructor"
      = .error "provider.getAvailableModels is not a function" ∧
    AIProviderManager.getAvailableModels "gemini" = .ok [] ∧
    AIProviderManager.getAvailableModels "OpenAI"
      = .ok ["gpt-3.5-turbo", "gpt-4", "gpt-4-turbo", "gpt-4o"] :=
  ⟨rfl, rfl, rfl⟩

/-! ## The rule scan and the AI fallback -/

namespace FacebookManager

theorem tryAIResponse_effects_ai (env : Env) (userId : Int) (pageId : String)
    (messageText : JSVal) :
    (tryAIResponse env userId pageId messageText).2.any Effect.isAI = true := by
  unfold tryAIResponse
  cases env.aiConfigs with
  | error message => simp [Effect.isAI]
  | ok configs =>
    cases configs with
    | nil => simp [Effect.isAI]
    | cons aiConfig rest =>
      rcases hg : AIProviderManager.generateResponse env.provider messageText aiConfig
        with ⟨res, fx⟩
      cases res <;> simp [hg, Effect.isAI]

/-- When no rule is found, the effects of the resolution are the rule query
followed by the effects of `tryAIResponse`. -/
theorem resolve_effects_of_none (env : Env) (userId : Int) (pageId : String)
    (messageText : JSVal) (h : findPredefinedResponse env.rules messageText = none) :
    (resolve env userId pageId messageText).2 =
      Effect.dbSelectRules userId pageId :: (tryAIResponse env userId pageId messageText).2 := by
  unfold resolve
  rw [h]
  rcases tryAIResponse env userId pageId messageText with ⟨ai, fx⟩
  cases ai <;> rfl

/-- The effects of `processWithPage` start with the two lookups and the
effects of the resolution. -/
theorem processWithPage_effects_start (env : Env) (page : Page) (pageId : String)
    (messagingData senderId messageId messageText : JSVal) :
    ∃ tail, (processWithPage env page pageId messagingData senderId messageId messageText).effects =
      [Effect.dbSelectPage pageId, Effect.graphGetSenderName senderId page.access_token] ++
        (resolve env page.user_id pageId messageText).2 ++ tail := by
  unfold processWithPage
  rcases resolve env page.user_id pageId messageText with ⟨rd, fx⟩
  simp only
  cases rd.text with
  | none => exact ⟨_, rfl⟩
  | some text =>
    simp only
    split
    · simp only [sendMessage]
      cases env.send with
      | error message =>
        simp only [catchBlock]
        cases messagingData.getProp "message" with
        | error e =>
          exact ⟨[Effect.sendMessage pageId senderId text page.access_token], by simp⟩
        | ok v =>
          refine ⟨Effect.sendMessage pageId senderId text page.access_token ::
            saveMessageHistory env
              { userId := none
                pageId := pageId
                messageId := messageIdOf messagingData
                senderId := (messagingData.getPropOpt "sender").getPropOpt "id"
                senderName := none
                messageText := messageTextOf messagingData
                responseText := none
                responseType := "error"
                matchedKeyword := none
                processingTime := env.elapsed
                errorMessage := some message }, ?_⟩
          simp
      | ok u =>
        exact ⟨Effect.sendMessage pageId senderId text page.access_token ::
          recordAndLog env page pageId senderId messageId messageText rd, by simp⟩
    · exact ⟨_, rfl⟩

end FacebookManager

/-! ## Lower-casing, trimming and the rules they shut out -/

theorem toLower_not_isUpper (c : Char) : (Char.toLower c).isUpper = false := by
  unfold Char.toLower
  simp only
  split
  · rename_i h
    obtain ⟨h1, h2⟩ := h
    generalize c.toNat = n at h1 h2
    interval_cases n <;> decide
  · rename_i h
    simp only [Char.isUpper, Char.toNat, ge_iff_le, not_and, not_le] at h ⊢
    simp only [Bool.and_eq_false_imp, decide_eq_true_eq, decide_eq_false_iff_not, not_le]
    intro h1
    have := h (by simpa [UInt32.le_def, BitVec.le_def] using h1)
    simpa [UInt32.lt_def, BitVec.lt_def] using this

theorem toLower_of_isWhiteSpace (c : Char) (h : isWhiteSpace c = true) : Char.toLower c = c := by
  unfold Char.toLower
  simp only
  split
  · rename_i hr
    simp [isWhiteSpace] at h
    omega
  · rfl

theorem trim_data_sublist (s : String) : List.Sublist (trim s).data s.data := by
  unfold trim
  simp only
  have h1 : List.Sublist ((s.data.dropWhile isWhiteSpace).reverse.dropWhile isWhiteSpace)
      (s.data.dropWhile isWhiteSpace).reverse := List.dropWhile_sublist _
  have h2 := h1.reverse
  rw [List.reverse_reverse] at h2
  exact h2.trans (List.dropWhile_sublist _)

/-- The lower-cased, trimmed message holds no letter `A`-`Z`. -/
theorem normalized_has_no_upper (text : String) :
    ∀ c ∈ (trim (toLowerCase text)).data, c.isUpper = false := by
  intro c hc
  have h := (trim_data_sublist (toLowerCase text)).subset hc
  simp only [toLowerCase, List.mem_map] at h
  obtain ⟨d, _, rfl⟩ := h
  exact toLower_not_isUpper d

/-- A trimmed string does not end with a white space character. -/
theorem trim_getLast (s : String) (c : Char) (h : (trim s).data.getLast? = some c) :
    isWhiteSpace c = false := by
  unfold trim at h
  simp only [List.getLast?_reverse] at h
  have := List.head?_dropWhile_not isWhiteSpace (s.data.dropWhile isWhiteSpace).reverse
  rw [h] at this
  exact this

/-- A trimmed string does not start with a white space character. -/
theorem trim_head (s : String) (c : Char) (h : (trim s).data.head? = some c) :
    isWhiteSpace c = false := by
  have hpre : (trim s).data <+: s.data.dropWhile isWhiteSpace := by
    unfold trim
    simp only
    have := List.dropWhile_suffix isWhiteSpace
      (l := (s.data.dropWhile isWhiteSpace).reverse)
    have h2 := List.reverse_prefix.mpr this
    rw [List.reverse_reverse] at h2
    exact h2
  obtain ⟨t, ht⟩ := hpre
  have hd := List.head?_dropWhile_not isWhiteSpace s.data
  rw [← ht, List.head?_append, h] at hd
  simpa using hd

namespace FacebookManager

/-- A rule that matches has its keyword inside the normalized message,
whatever its match type. -/
theorem ruleMatches_infix {m : String} {r : Rule} (h : ruleMatches m r = true) :
    (ruleKeyword r).data <:+: m.data := by
  rw [ruleMatches_eq] at h
  split at h
  · have : m = ruleKeyword r := by simpa using h
    exact this ▸ List.infix_refl _
  · split at h
    · exact ((startsWith_iff _ _).mp h).isInfix
    · split at h
      · exact ((endsWith_iff _ _).mp h).isInfix
      · exact (includes_iff _ _).mp h

/-- C25: a case-sensitive rule whose keyword holds a letter `A`-`Z` matches no
message, whatever its match type, and `findPredefinedResponse` never returns
it: the message is always lower-cased and such a keyword is left as is. -/
theorem case_sensitive_upper_keyword_never_matches (r : Rule)
    (hcase : r.case_sensitive = true) (hupper : ∃ c ∈ r.keyword.data, c.isUpper = true) :
    (∀ text : String, ruleMatches (trim (toLowerCase text)) r = false) ∧
    (∀ (rows : Except String (List Rule)) (messageText : JSVal),
      findPredefinedResponse rows messageText ≠ some r) := by
  have hno : ∀ text : String, ruleMatches (trim (toLowerCase text)) r = false := by
    intro text
    cases hm : ruleMatches (trim (toLowerCase text)) r with
    | false => rfl
    | true =>
      obtain ⟨c, hc, hu⟩ := hupper
      have hin := ruleMatches_infix hm
      have hkw : ruleKeyword r = r.keyword := by simp [ruleKeyword_eq, hcase]
      rw [hkw] at hin
      have := normalized_has_no_upper text c (hin.subset hc)
      rw [hu] at this
      cases this
  refine ⟨hno, ?_⟩
  intro rows messageText h
  cases rows with
  | error message => simp [findPredefinedResponse, findPredefinedResponseWith] at h
  | ok responses =>
    cases messageText <;>
      simp only [findPredefinedResponse, findPredefinedResponseWith] at h <;> try cases h
    rename_i text
    have := (scanResponses_some h).2
    rw [hno text] at this
    cases this

/-- Instance of C25: the case-sensitive rule "Hello", under each match type,
against the message "Hello". -/
theorem case_sensitive_upper_keyword_never_matches_witness :
    ruleMatches (trim (toLowerCase "Hello")) ⟨1, "Hello", "R", 1, some "exact", true⟩ = false ∧
    ruleMatches (trim (toLowerCase "Hello")) ⟨1, "Hello", "R", 1, some "contains", true⟩
      = false ∧
    ruleMatches (trim (toLowerCase "Hello")) ⟨1, "Hello", "R", 1, some "starts_with", true⟩
      = false ∧
    ruleMatches (trim (toLowerCase "Hello")) ⟨1, "Hello", "R", 1, some "ends_with", true⟩
      = false :=
  ⟨(case_sensitive_upper_keyword_never_matches ⟨1, "Hello", "R", 1, some "exact", true⟩ rfl
      ⟨'H', by decide, by decide⟩).1 "Hello",
   (case_sensitive_upper_keyword_never_matches ⟨1, "Hello", "R", 1, some "contains", true⟩ rfl
      ⟨'H', by decide, by decide⟩).1 "Hello",
   (case_sensitive_upper_keyword_never_matches ⟨1, "Hello", "R", 1, some "starts_with", true⟩
      rfl ⟨'H', by decide, by decide⟩).1 "Hello",
   (case_sensitive_upper_keyword_never_matches ⟨1, "Hello", "R", 1, some "ends_with", true⟩
      rfl ⟨'H', by decide, by decide⟩).1 "Hello"⟩

/-- C26: two messages with the same lower-cased, trimmed form get the same
answer from `findPredefinedResponse`, on every rule list. -/
theorem findPredefinedResponse_of_normalized (rows : Except String (List Rule))
    (m1 m2 : String) (h : trim (toLowerCase m1) = trim (toLowerCase m2)) :
    findPredefinedResponse rows (.str m1) = findPredefinedResponse rows (.str m2) := by
  cases rows with
  | error message => rfl
  | ok responses => simp only [findPredefinedResponse, findPredefinedResponseWith, h]

/-- Instance of C26: the messages "  HELLO" and "Hello " against a
case-sensitive rule and a case-insensitive one. -/
theorem findPredefinedResponse_of_normalized_witness :
    findPredefinedResponse
        (.ok [⟨1, "Hello", "A", 2, some "exact", true⟩, ⟨2, "hello", "B", 1, some "exact", true⟩])
        (.str "  HELLO")
      = findPredefinedResponse
        (.ok [⟨1, "Hello", "A", 2, some "exact", true⟩, ⟨2, "hello", "B", 1, some "exact", true⟩])
        (.str "Hello ") :=
  findPredefinedResponse_of_normalized _ "  HELLO" "Hello " (by decide)

end FacebookManager

namespace FacebookManager

theorem includesFrom_nil (s : List Char) : includesFrom s [] = true :=
  (includesFrom_iff s []).mpr List.nil_infix

/-- C27: a rule with the empty keyword and a match type other than "exact"
matches every message; with such a rule in the fetched list
`findPredefinedResponse` never returns null, and the resolution makes no
query on the AI configs and no provider call. -/
theorem empty_keyword_matches_everything (r : Rule) (hkw : r.keyword = "")
    (hexact : r.match_type ≠ some "exact") :
    (∀ text : String, ruleMatches (trim (toLowerCase text)) r = true) ∧
    (∀ (responses : List Rule) (text : String), r ∈ responses →
      findPredefinedResponse (.ok responses) (.str text) ≠ none) ∧
    (∀ (env : Env) (userId : Int) (pageId : String) (text : String) (responses : List Rule),
      env.rules = .ok responses → r ∈ responses →
      (resolve env userId pageId (.str text)).2.any Effect.isAI = false) := by
  have hk : ruleKeyword r = "" := by
    rw [ruleKeyword_eq]
    split <;> simp [hkw, toLowerCase]
  have hall : ∀ text : String, ruleMatches (trim (toLowerCase text)) r = true := by
    intro text
    rw [ruleMatches_eq]
    simp only [hk, hexact, if_false]
    split
    · simp [startsWith]
    · split
      · simp [endsWith]
      · simp [includes, includesFrom_nil]
  have hsome : ∀ (responses : List Rule) (text : String), r ∈ responses →
      findPredefinedResponse (.ok responses) (.str text) ≠ none := by
    intro responses text hin hnone
    simp only [findPredefinedResponse] at hnone
    have := scanResponses_none.mp hnone r hin
    rw [hall text] at this
    cases this
  refine ⟨hall, hsome, ?_⟩
  intro env userId pageId text responses hrules hin
  have hne := hsome responses text hin
  unfold resolve
  rw [hrules]
  cases hf : findPredefinedResponse (.ok responses) (.str text) with
  | none => exact absurd hf hne
  | some found => simp [Effect.isAI]

/-- Instance of C27: a `starts_with` rule with the empty keyword, placed after
a rule that does not match. -/
theorem empty_keyword_matches_everything_witness :
    findPredefinedResponse
        (.ok [⟨1, "prix", "A", 2, some "contains", false⟩, ⟨2, "", "B", 1, some "starts_with", false⟩])
        (.str "Bonjour")
      ≠ none :=
  (empty_keyword_matches_everything ⟨2, "", "B", 1, some "starts_with", false⟩ rfl
    (by decide)).2.1 _ "Bonjour" (by decide)

theorem ruleKeyword_head (r : Rule) (c : Char) (h : r.keyword.data.head? = some c)
    (hws : isWhiteSpace c = true) : (ruleKeyword r).data.head? = some c := by
  rw [ruleKeyword_eq]
  split
  · exact h
  · simp only [toLowerCase, List.head?_map, h, Option.map_some', toLower_of_isWhiteSpace c hws]

theorem ruleKeyword_getLast (r : Rule) (c : Char) (h : r.keyword.data.getLast? = some c)
    (hws : isWhiteSpace c = true) : (ruleKeyword r).data.getLast? = some c := by
  rw [ruleKeyword_eq]
  split
  · exact h
  · have h2 : (r.keyword.data.map Char.toLower).getLast? = some c := by
      rw [← List.head?_reverse, ← List.map_reverse, List.head?_map, List.head?_reverse, h,
        Option.map_some', toLower_of_isWhiteSpace c hws]
    exact h2

/-- C28: an `exact` rule whose keyword starts or ends with a white space
character matches no message: the message is trimmed, the keyword is not. -/
theorem exact_rule_with_padded_keyword_never_matches (r : Rule)
    (hexact : r.match_type = some "exact")
    (hpad : (∃ c, r.keyword.data.head? = some c ∧ isWhiteSpace c = true) ∨
      (∃ c, r.keyword.data.getLast? = some c ∧ isWhiteSpace c = true)) :
    ∀ text : String, ruleMatches (trim (toLowerCase text)) r = false := by
  intro text
  cases hm : ruleMatches (trim (toLowerCase text)) r with
  | false => rfl
  | true =>
    have heq : trim (toLowerCase text) = ruleKeyword r := by
      simpa [ruleMatches_eq, hexact] using hm
    rcases hpad with ⟨c, hc, hws⟩ | ⟨c, hc, hws⟩
    · have h1 := ruleKeyword_head r c hc hws
      rw [← heq] at h1
      have := trim_head _ c h1
      rw [hws] at this
      cases this
    · have h1 := ruleKeyword_getLast r c hc hws
      rw [← heq] at h1
      have := trim_getLast _ c h1
      rw [hws] at this
      cases this

/-- Instance of C28: the keywords "hello " and " hello" against the message
"hello ". -/
theorem exact_rule_with_padded_keyword_never_matches_witness :
    ruleMatches (trim (toLowerCase "hello ")) ⟨1, "hello ", "R", 1, some "exact", false⟩ = false ∧
    ruleMatches (trim (toLowerCase "hello ")) ⟨1, " hello", "R", 1, some "exact", true⟩ = false :=
  ⟨exact_rule_with_padded_keyword_never_matches ⟨1, "hello ", "R", 1, some "exact", false⟩ rfl
      (Or.inr ⟨' ', by decide, by decide⟩) "hello ",
   exact_rule_with_padded_keyword_never_matches ⟨1, " hello", "R", 1, some "exact", true⟩ rfl
      (Or.inl ⟨' ', by decide, by decide⟩) "hello "⟩

end FacebookManager

/-! ## The keyword scan of the webhook endpoint -/

namespace Server

end Server

/-! ## Payloads that never fail a replay -/

namespace FacebookManager

/-- C24: `processIncomingMessage` raises on no messaging event other than
`null` and `undefined`, so in particular on no object.  Hence a queued event
whose payload parses to such a value is marked processed, with `retry_count`
unchanged, whenever the update that marks it is accepted, whatever failed
while resolving or delivering; and its `retry_count` changes only when the
parsing or that update fails. -/
theorem object_payload_never_fails_replay (env : SweepEnv) (event : QueuedEvent)
    (hobj : ∀ rawData, env.jsonParse event.raw_data = .ok rawData → rawData.isNullish = false) :
    (∀ (rawData : JSVal) (scenario : Env) (pageId : String), rawData.isNullish = false →
      (processIncomingMessage scenario pageId rawData).thrown = none) ∧
    (∀ rawData, env.jsonParse event.raw_data = .ok rawData → env.markProcessed = .ok () →
      (processQueuedEvent env event).event = { event with processed := true }) ∧
    ((processQueuedEvent env event).event.retry_count ≠ event.retry_count →
      (∃ message, env.jsonParse event.raw_data = .error message) ∨
      (∃ message, env.markProcessed = .error message)) := by
  have hmark : ∀ rawData, env.jsonParse event.raw_data = .ok rawData →
      env.markProcessed = .ok () →
      (processQueuedEvent env event).event = { event with processed := true } := by
    intro rawData hparse hm
    have hout : (if event.event_type = "message" then
          processIncomingMessage env.message event.page_id rawData
        else ({ effects := [], thrown := none } : Outcome)).thrown = none := by
      split
      · exact processIncomingMessage_thrown_none _ _ _ (hobj rawData hparse)
      · rfl
    have hreplay : (replay env event).1 = .ok () := by
      unfold replay
      simp only [hparse]
      split
      · rename_i heq
        rw [hout] at heq
        cases heq
      · simp [hm]
    unfold processQueuedEvent
    rcases hr : replay env event with ⟨res, fx⟩
    rw [hr] at hreplay
    simp only at hreplay
    subst hreplay
    rfl
  refine ⟨fun rawData scenario pageId h => processIncomingMessage_thrown_none _ _ _ h,
    hmark, ?_⟩
  intro hchange
  cases hparse : env.jsonParse event.raw_data with
  | error message => exact Or.inl ⟨message, rfl⟩
  | ok rawData =>
    cases hm : env.markProcessed with
    | error message => exact Or.inr ⟨message, rfl⟩
    | ok u =>
      have := hmark rawData hparse hm
      rw [this] at hchange
      exact absurd rfl hchange

/-- Instance of C24: a message whose page lookup fails in the database is
marked processed all the same. -/
theorem object_payload_never_fails_replay_witness :
    (processQueuedEvent
        { jsonParse := fun _ => .ok (messagingEvent "U1" "M1" "Hi")
          message :=
            { pages := .error "Connection lost", senderName := none, rules := .ok [],
              aiConfigs := .ok [], provider := .error "unused", send := .ok (),
              historyInsert := .ok (), elapsed := 0 }
          markProcessed := .ok ()
          bumpRetry := .ok () }
        ⟨4, "P1", "message", "raw", false, none, 1, 100⟩).event
      = ⟨4, "P1", "message", "raw", true, none, 1, 100⟩ :=
  (object_payload_never_fails_replay
      { jsonParse := fun _ => .ok (messagingEvent "U1" "M1" "Hi")
        message :=
          { pages := .error "Connection lost", senderName := none, rules := .ok [],
            aiConfigs := .ok [], provider := .error "unused", send := .ok (),
            historyInsert := .ok (), elapsed := 0 }
        markProcessed := .ok ()
        bumpRetry := .ok () }
      ⟨4, "P1", "message", "raw", false, none, 1, 100⟩
      (fun rawData h => by
        have : rawData = messagingEvent "U1" "M1" "Hi" := by
          simpa using h.symm
        rw [this]
        rfl)).2.1 (messagingEvent "U1" "M1" "Hi") rfl rfl

end FacebookManager

/-! ## The delivery guard and the unused `fallback_only` column -/

namespace FacebookManager

theorem tryAIResponse_no_send (env : Env) (userId : Int) (pageId : String)
    (messageText : JSVal) :
    (tryAIResponse env userId pageId messageText).2.filter Effect.isSend = [] := by
  unfold tryAIResponse
  cases env.aiConfigs with
  | error message => simp [Effect.isSend]
  | ok configs =>
    cases configs with
    | nil => simp [Effect.isSend]
    | cons aiConfig rest =>
      simp only [AIProviderManager.generateResponse]
      cases AIProviderManager.lookup aiConfig.provider <;>
        cases env.provider <;> simp [Effect.isSend]

theorem resolve_no_send (env : Env) (userId : Int) (pageId : String) (messageText : JSVal) :
    (resolve env userId pageId messageText).2.filter Effect.isSend = [] := by
  have h := tryAIResponse_no_send env userId pageId messageText
  unfold resolve
  cases findPredefinedResponse env.rules messageText with
  | some r => simp [Effect.isSend]
  | none =>
    rcases hres : tryAIResponse env userId pageId messageText with ⟨ai, fx⟩
    rw [hres] at h
    cases ai <;> simpa [Effect.isSend] using h

theorem catchBlock_sends (env : Env) (pageId : String) (messagingData : JSVal)
    (message : String) (before : List Effect) :
    (catchBlock env pageId messagingData message before).effects.filter Effect.isSend =
      before.filter Effect.isSend := by
  unfold catchBlock
  cases messagingData.getProp "message" with
  | error e => rfl
  | ok v => simp [saveMessageHistory, Effect.isSend]

/-- The sends of `processWithPage`: one, of the resolved text, when that text
is a non-empty string; none otherwise. -/
theorem processWithPage_sends (env : Env) (page : Page) (pageId : String)
    (messagingData senderId messageId messageText : JSVal) :
    (processWithPage env page pageId messagingData senderId messageId messageText).effects.filter
        Effect.isSend =
      if textTruthy (resolve env page.user_id pageId messageText).1.text then
        [Effect.sendMessage pageId senderId
          ((resolve env page.user_id pageId messageText).1.text.getD "") page.access_token]
      else [] := by
  have hres := resolve_no_send env page.user_id pageId messageText
  unfold processWithPage
  rcases hr : resolve env page.user_id pageId messageText with ⟨rd, fx⟩
  rw [hr] at hres
  simp only at hres ⊢
  cases htxt : rd.text with
  | none =>
    simp [textTruthy, recordAndLog, saveMessageHistory, logEvent, hres, List.filter_append,
      List.filter_cons, Effect.isSend]
  | some text =>
    by_cases hne : text = ""
    · simp [hne, textTruthy, recordAndLog, saveMessageHistory, logEvent, hres,
        List.filter_append, List.filter_cons, Effect.isSend]
    · simp only [textTruthy, bne_iff_ne, ne_eq, hne, not_false_eq_true, if_true, sendMessage,
        Option.getD_some]
      cases env.send with
      | error message =>
        simp [catchBlock_sends, hres, List.filter_append, List.filter_cons, Effect.isSend]
      | ok u =>
        simp [recordAndLog, saveMessageHistory, logEvent, hres, List.filter_append,
          List.filter_cons, Effect.isSend]

/-- C30: `processIncomingMessage` calls `sendMessage` once at most; for a
message that reaches the resolution it calls it exactly when the resolved
text is a non-empty string, with that text; with a null or empty text it
sends nothing and still calls `saveMessageHistory` and `logEvent`. -/
theorem sendMessage_once_iff_reply (env : Env) (pageId : String) (messagingData : JSVal) :
    ((processIncomingMessage env pageId messagingData).effects.filter Effect.isSend).length ≤ 1 ∧
    (∀ (senderId : JSVal) (page : Page) (rest : List Page),
      senderIdOf messagingData = .ok senderId →
      (messageTextOf messagingData).truthy = true →
      (messageIdOf messagingData).truthy = true →
      env.pages = .ok (page :: rest) →
      ((processIncomingMessage env pageId messagingData).effects.filter Effect.isSend =
        if textTruthy (resolve env page.user_id pageId (messageTextOf messagingData)).1.text
        then
          [Effect.sendMessage pageId senderId
            ((resolve env page.user_id pageId (messageTextOf messagingData)).1.text.getD "")
            page.access_token]
        else []) ∧
      (textTruthy (resolve env page.user_id pageId (messageTextOf messagingData)).1.text = false →
        (processIncomingMessage env pageId messagingData).effects =
          [Effect.dbSelectPage pageId, Effect.graphGetSenderName senderId page.access_token] ++
          (resolve env page.user_id pageId (messageTextOf messagingData)).2 ++
          recordAndLog env page pageId senderId (messageIdOf messagingData)
            (messageTextOf messagingData)
            (resolve env page.user_id pageId (messageTextOf messagingData)).1)) := by
  constructor
  · unfold processIncomingMessage
    cases senderIdOf messagingData with
    | error message => simp [catchBlock_sends]
    | ok senderId =>
      simp only
      split
      · simp
      · cases env.pages with
        | error message => simp [catchBlock_sends, Effect.isSend]
        | ok pages =>
          cases pages with
          | nil => simp [Effect.isSend]
          | cons page rest =>
            simp only [processWithPage_sends]
            split <;> simp
  · intro senderId page rest hsender htext hmid hpage
    have hproc : processIncomingMessage env pageId messagingData =
        processWithPage env page pageId messagingData senderId (messageIdOf messagingData)
          (messageTextOf messagingData) := by
      simp [processIncomingMessage, hsender, htext, hmid, hpage]
    rw [hproc]
    refine ⟨processWithPage_sends _ _ _ _ _ _ _, ?_⟩
    intro hfalse
    unfold processWithPage
    rcases hr : resolve env page.user_id pageId (messageTextOf messagingData) with ⟨rd, fx⟩
    rw [hr] at hfalse
    simp only at hfalse ⊢
    cases htxt : rd.text with
    | none => rfl
    | some text =>
      have hne : text = "" := by simpa [htxt, textTruthy] using hfalse
      simp [hne]

/-- Instance of C30: a matched rule with an empty response; nothing is sent
and the history call is made. -/
theorem sendMessage_once_iff_reply_witness :
    (processIncomingMessage
        { pages := .ok [⟨7, "P1", "tok"⟩]
          senderName := none
          rules := .ok [⟨1, "hi", "", 1, some "exact", false⟩]
          aiConfigs := .ok []
          provider := .error "unused"
          send := .ok ()
          historyInsert := .ok ()
          elapsed := 2 }
        "P1" (messagingEvent "U1" "M1" "Hi")).effects.filter Effect.isSend = [] ∧
    (processIncomingMessage
        { pages := .ok [⟨7, "P1", "tok"⟩]
          senderName := none
          rules := .ok [⟨1, "hi", "", 1, some "exact", false⟩]
          aiConfigs := .ok []
          provider := .error "unused"
          send := .ok ()
          historyInsert := .ok ()
          elapsed := 2 }
        "P1" (messagingEvent "U1" "M1" "Hi")).effects.any Effect.isHistory = true :=
  ⟨((sendMessage_once_iff_reply
      { pages := .ok [⟨7, "P1", "tok"⟩]
        senderName := none
        rules := .ok [⟨1, "hi", "", 1, some "exact", false⟩]
        aiConfigs := .ok []
        provider := .error "unused"
        send := .ok ()
        historyInsert := .ok ()
        elapsed := 2 }
      "P1" (messagingEvent "U1" "M1" "Hi")).2 (.str "U1") ⟨7, "P1", "tok"⟩ [] rfl rfl rfl
      rfl).1,
   rfl⟩

end FacebookManager

namespace FacebookManager

theorem tryAIResponse_fallback_flag (env : Env) (config : AIConfig) (rest : List AIConfig)
    (flag : Bool) (userId : Int) (pageId : String) (messageText : JSVal)
    (hcfg : env.aiConfigs = .ok (config :: rest)) :
    (tryAIResponse { env with aiConfigs := .ok ({ config with fallback_only := flag } :: rest) }
        userId pageId messageText).1 = (tryAIResponse env userId pageId messageText).1 ∧
    (tryAIResponse { env with aiConfigs := .ok ({ config with fallback_only := flag } :: rest) }
        userId pageId messageText).2.map Effect.withoutFallbackFlag =
      (tryAIResponse env userId pageId messageText).2.map Effect.withoutFallbackFlag := by
  unfold tryAIResponse
  simp only [hcfg, AIProviderManager.generateResponse]
  cases AIProviderManager.lookup config.provider <;> cases env.provider <;>
    simp [Effect.withoutFallbackFlag]

theorem resolve_fallback_flag (env : Env) (config : AIConfig) (rest : List AIConfig)
    (flag : Bool) (userId : Int) (pageId : String) (messageText : JSVal)
    (hcfg : env.aiConfigs = .ok (config :: rest)) :
    (resolve { env with aiConfigs := .ok ({ config with fallback_only := flag } :: rest) }
        userId pageId messageText).1 = (resolve env userId pageId messageText).1 ∧
    (resolve { env with aiConfigs := .ok ({ config with fallback_only := flag } :: rest) }
        userId pageId messageText).2.map Effect.withoutFallbackFlag =
      (resolve env userId pageId messageText).2.map Effect.withoutFallbackFlag := by
  obtain ⟨h1, h2⟩ := tryAIResponse_fallback_flag env config rest flag userId pageId messageText hcfg
  unfold resolve
  simp only
  cases findPredefinedResponse env.rules messageText with
  | some r => exact ⟨rfl, rfl⟩
  | none =>
    simp only
    rcases ha : tryAIResponse
      { env with aiConfigs := .ok ({ config with fallback_only := flag } :: rest) }
      userId pageId messageText with ⟨ai2, fx2⟩
    rcases hb : tryAIResponse env userId pageId messageText with ⟨ai, fx⟩
    rw [ha, hb] at h1 h2
    simp only at h1 h2
    subst h1
    cases ai2 <;> simp [Effect.withoutFallbackFlag, h2]

theorem processWithPage_fallback_flag (env : Env) (config : AIConfig) (rest : List AIConfig)
    (flag : Bool) (page : Page) (pageId : String)
    (messagingData senderId messageId messageText : JSVal)
    (hcfg : env.aiConfigs = .ok (config :: rest)) :
    (processWithPage
        { env with aiConfigs := .ok ({ config with fallback_only := flag } :: rest) }
        page pageId messagingData senderId messageId messageText).thrown =
      (processWithPage env page pageId messagingData senderId messageId messageText).thrown ∧
    (processWithPage
        { env with aiConfigs := .ok ({ config with fallback_only := flag } :: rest) }
        page pageId messagingData senderId messageId messageText).effects.map
        Effect.withoutFallbackFlag =
      (processWithPage env page pageId messagingData senderId messageId
        messageText).effects.map Effect.withoutFallbackFlag := by
  obtain ⟨h1, h2⟩ :=
    resolve_fallback_flag env config rest flag page.user_id pageId messageText hcfg
  unfold processWithPage
  rcases ha : resolve
    { env with aiConfigs := .ok ({ config with fallback_only := flag } :: rest) }
    page.user_id pageId messageText with ⟨rd2, fx2⟩
  rcases hb : resolve env page.user_id pageId messageText with ⟨rd, fx⟩
  rw [ha, hb] at h1 h2
  simp only at h1 h2
  subst h1
  simp only
  cases rd2.text with
  | none =>
    simp [recordAndLog, saveMessageHistory, logEvent, h2, Effect.withoutFallbackFlag]
  | some text =>
    by_cases hne : text = ""
    · simp [hne, recordAndLog, saveMessageHistory, logEvent, h2, Effect.withoutFallbackFlag]
    · simp only [bne_iff_ne, ne_eq, hne, not_false_eq_true, if_true, sendMessage]
      cases env.send with
      | error message =>
        simp only [catchBlock]
        cases messagingData.getProp "message" with
        | error e => simp [h2, Effect.withoutFallbackFlag]
        | ok v => simp [saveMessageHistory, h2, Effect.withoutFallbackFlag]
      | ok u =>
        simp [recordAndLog, saveMessageHistory, logEvent, h2, Effect.withoutFallbackFlag]

/-- C29: replacing the `fallback_only` column of the active AI config changes
nothing: the provider request is the same, `tryAIResponse` returns the same
object, and `processIncomingMessage` raises the same, sends the same and
records the same; its effects differ by that column of the config named in
the provider call only. -/
theorem fallback_only_has_no_effect (env : Env) (config : AIConfig) (rest : List AIConfig)
    (flag : Bool) (pageId : String) (messagingData : JSVal)
    (hcfg : env.aiConfigs = .ok (config :: rest)) :
    (∀ messageText : JSVal,
      AIProviderManager.requestOf { config with fallback_only := flag } messageText =
        AIProviderManager.requestOf config messageText) ∧
    (∀ (userId : Int) (messageText : JSVal),
      (tryAIResponse
          { env with aiConfigs := .ok ({ config with fallback_only := flag } :: rest) }
          userId pageId messageText).1 = (tryAIResponse env userId pageId messageText).1) ∧
    (processIncomingMessage
        { env with aiConfigs := .ok ({ config with fallback_only := flag } :: rest) }
        pageId messagingData).thrown = (processIncomingMessage env pageId messagingData).thrown ∧
    (processIncomingMessage
        { env with aiConfigs := .ok ({ config with fallback_only := flag } :: rest) }
        pageId messagingData).effects.map Effect.withoutFallbackFlag =
      (processIncomingMessage env pageId messagingData).effects.map
        Effect.withoutFallbackFlag ∧
    (processIncomingMessage
        { env with aiConfigs := .ok ({ config with fallback_only := flag } :: rest) }
        pageId messagingData).effects.filter (fun e => e.isSend || e.isHistory) =
      (processIncomingMessage env pageId messagingData).effects.filter
        (fun e => e.isSend || e.isHistory) := by
  have hmain :
      (processIncomingMessage
          { env with aiConfigs := .ok ({ config with fallback_only := flag } :: rest) }
          pageId messagingData).thrown =
        (processIncomingMessage env pageId messagingData).thrown ∧
      (processIncomingMessage
          { env with aiConfigs := .ok ({ config with fallback_only := flag } :: rest) }
          pageId messagingData).effects.map Effect.withoutFallbackFlag =
        (processIncomingMessage env pageId messagingData).effects.map
          Effect.withoutFallbackFlag := by
    unfold processIncomingMessage
    cases senderIdOf messagingData with
    | error message => exact ⟨rfl, rfl⟩
    | ok senderId =>
      simp only
      split
      · exact ⟨rfl, rfl⟩
      · cases env.pages with
        | error message => exact ⟨rfl, rfl⟩
        | ok pages =>
          cases pages with
          | nil => exact ⟨rfl, rfl⟩
          | cons page others =>
            exact processWithPage_fallback_flag env config rest flag page pageId messagingData
              senderId _ _ hcfg
  refine ⟨fun _ => rfl, ?_, hmain.1, hmain.2, ?_⟩
  · intro userId messageText
    exact (tryAIResponse_fallback_flag env config rest flag userId pageId messageText hcfg).1
  · have hkeep : ∀ l : List Effect,
        l.filter (fun e => e.isSend || e.isHistory) =
          (l.map Effect.withoutFallbackFlag).filter (fun e => e.isSend || e.isHistory) := by
      have hp : ∀ e : Effect, (e.withoutFallbackFlag.isSend || e.withoutFallbackFlag.isHistory) =
          (e.isSend || e.isHistory) := by
        intro e
        cases e <;> rfl
      have hw : ∀ e : Effect, (e.isSend || e.isHistory) = true → e.withoutFallbackFlag = e := by
        intro e h
        cases e <;> first | rfl | cases h
      intro l
      induction l with
      | nil => rfl
      | cons a t ih =>
        simp only [List.map_cons, List.filter_cons, hp]
        by_cases ha : (a.isSend || a.isHistory) = true
        · simp only [ha, if_true, hw a ha]
          rw [ih]
        · simp only [ha]
          exact ih
    rw [hkeep, hmain.2, ← hkeep]

/-- Instance of C29: the same OpenAI config with `fallback_only` false and
true; the generated reply is sent in both runs. -/
theorem fallback_only_has_no_effect_witness :
    (processIncomingMessage
        { pages := .ok [⟨7, "P1", "tok"⟩]
          senderName := none
          rules := .ok []
          aiConfigs :=
            .ok [⟨"openai", "gpt-4", "key", none, none, none, none, none, none, false⟩]
          provider := .ok "Bonjour"
          send := .ok ()
          historyInsert := .ok ()
          elapsed := 9 }
        "P1" (messagingEvent "U1" "M1" "salut")).effects.filter
        (fun e => e.isSend || e.isHistory) =
      (processIncomingMessage
        { pages := .ok [⟨7, "P1", "tok"⟩]
          senderName := none
          rules := .ok []
          aiConfigs :=
            .ok [⟨"openai", "gpt-4", "key", none, none, none, none, none, none, true⟩]
          provider := .ok "Bonjour"
          send := .ok ()
          historyInsert := .ok ()
          elapsed := 9 }
        "P1" (messagingEvent "U1" "M1" "salut")).effects.filter
        (fun e => e.isSend || e.isHistory) :=
  (fallback_only_has_no_effect
    { pages := .ok [⟨7, "P1", "tok"⟩]
      senderName := none
      rules := .ok []
      aiConfigs := .ok [⟨"openai", "gpt-4", "key", none, none, none, none, none, none, true⟩]
      provider := .ok "Bonjour"
      send := .ok ()
      historyInsert := .ok ()
      elapsed := 9 }
    ⟨"openai", "gpt-4", "key", none, none, none, none, none, none, true⟩ [] false "P1"
    (messagingEvent "U1" "M1" "salut") rfl).2.2.2.2

end FacebookManager

/-! ## Trimming, stated without `trim` -/

theorem dropWhile_append_of_all {p : Char → Bool} (pre l : List Char)
    (h : ∀ c ∈ pre, p c = true) : (pre ++ l).dropWhile p = l.dropWhile p := by
  induction pre with
  | nil => rfl
  | cons a t ih =>
    have ha := h a (List.mem_cons_self _ _)
    simp only [List.cons_append, List.dropWhile_cons, ha, if_true]
    exact ih (fun c hc => h c (List.mem_cons_of_mem _ hc))

theorem dropWhile_of_head {p : Char → Bool} (l : List Char)
    (h : ∀ c, l.head? = some c → p c = false) : l.dropWhile p = l := by
  cases l with
  | nil => rfl
  | cons a t => simp [List.dropWhile_cons, h a rfl]

namespace FacebookManager

/-- The result of `trim` is the input without the white space at its two
ends. -/
theorem trimsTo_trim (s : String) : TrimsTo s (trim s) := by
  refine ⟨s.data.takeWhile isWhiteSpace,
    ((s.data.dropWhile isWhiteSpace).reverse.takeWhile isWhiteSpace).reverse, ?_, ?_, ?_,
    trim_head s, trim_getLast s⟩
  · have h1 : ((s.data.dropWhile isWhiteSpace).reverse.dropWhile isWhiteSpace).reverse ++
        ((s.data.dropWhile isWhiteSpace).reverse.takeWhile isWhiteSpace).reverse =
        s.data.dropWhile isWhiteSpace := by
      rw [← List.reverse_append, List.takeWhile_append_dropWhile, List.reverse_reverse]
    show s.data = s.data.takeWhile isWhiteSpace ++
      ((s.data.dropWhile isWhiteSpace).reverse.dropWhile isWhiteSpace).reverse ++ _
    rw [List.append_assoc, h1, List.takeWhile_append_dropWhile]
  · intro c hc
    exact List.mem_takeWhile_imp hc
  · intro c hc
    exact List.mem_takeWhile_imp (List.mem_reverse.mp hc)

/-- Only the result of `trim` is the input without the white space at its two
ends. -/
theorem trimsTo_unique {s t : String} (h : TrimsTo s t) : t = trim s := by
  obtain ⟨pre, post, hs, hpre, hpost, hhead, hlast⟩ := h
  apply String.ext
  show t.data = ((s.data.dropWhile isWhiteSpace).reverse.dropWhile isWhiteSpace).reverse
  rw [hs, List.append_assoc, dropWhile_append_of_all pre _ hpre]
  cases ht : t.data with
  | nil =>
    have hall : post.dropWhile isWhiteSpace = [] := by
      have := dropWhile_append_of_all (p := isWhiteSpace) post [] hpost
      simpa using this
    simp [hall]
  | cons a rest =>
    have h1 : (a :: rest ++ post).dropWhile isWhiteSpace = a :: rest ++ post := by
      apply dropWhile_of_head
      intro c hc
      apply hhead c
      rw [ht]
      simpa using hc
    rw [h1, List.reverse_append,
      dropWhile_append_of_all post.reverse _ (fun c hc => hpost c (List.mem_reverse.mp hc))]
    have h2 : (a :: rest).reverse.dropWhile isWhiteSpace = (a :: rest).reverse := by
      apply dropWhile_of_head
      intro c hc
      apply hlast c
      rw [ht, ← List.head?_reverse]
      exact hc
    rw [h2, List.reverse_reverse]

theorem trimsTo_iff (s t : String) : TrimsTo s t ↔ t = trim s :=
  ⟨trimsTo_unique, fun h => h ▸ trimsTo_trim s⟩

/-- The rule matches the message exactly when `match` is true on the
normalized message that the lookup computes. -/
theorem ruleMatchesMessage_iff (lower : String → String) (r : Rule) (text : String) :
    RuleMatchesMessage lower r text ↔ ruleMatchesWith lower (trim (lower text)) r = true := by
  constructor
  · rintro ⟨core, hcore, hm⟩
    rw [← trimsTo_unique hcore]
    exact hm
  · intro h
    exact ⟨_, trimsTo_trim _, h⟩

/-- The lookup on a list of one rule returns the rule exactly when `match` is
true for it. -/
theorem findPredefinedResponseWith_single (lower : String → String) (r : Rule)
    (text : String) :
    findPredefinedResponseWith lower (.ok [r]) (.str text) = some r ↔
      ruleMatchesWith lower (trim (lower text)) r = true := by
  simp only [findPredefinedResponseWith, scanResponsesWith]
  by_cases h : ruleMatchesWith lower (trim (lower text)) r = true
  · simp [h]
  · simp [h]

end FacebookManager

/-! ## The rule lookup, for every lower-casing function -/

namespace FacebookManager

/-- C1: whatever the lower-casing function of the runtime, on a rule list in
fetch order (priority descending, then keyword length descending) the rule
returned by `findPredefinedResponse` is in the list, matches the message, and
no rule of the list that matches the message has a strictly greater
(priority, keyword length) tuple. -/
theorem findPredefinedResponseWith_top_ranked (lower : String → String)
    (responses : List Rule) (messageText : String) (r : Rule)
    (hord : FetchOrdered responses)
    (h : findPredefinedResponseWith lower (.ok responses) (.str messageText) = some r) :
    r ∈ responses ∧ RuleMatchesMessage lower r messageText ∧
      ∀ r' ∈ responses, RuleMatchesMessage lower r' messageText → ¬ rankLt r r' := by
  simp only [findPredefinedResponseWith] at h
  refine ⟨(scanResponsesWith_some h).1,
    (ruleMatchesMessage_iff lower r messageText).mpr (scanResponsesWith_some h).2, ?_⟩
  intro r' hr' hm
  exact scanResponsesWith_maximal hord h r' hr' ((ruleMatchesMessage_iff lower r' messageText).mp hm)

/-- Instance of C1: two matching rules of priority 2 and a matching rule of
priority 1, against a message with capitals and blanks at both ends; the
longer keyword of priority 2 is returned and no rule of the list has a
greater tuple. -/
theorem findPredefinedResponseWith_top_ranked_witness :
    findPredefinedResponseWith toLowerCase
        (.ok [⟨1, "order status", "A", 2, some "contains", false⟩,
              ⟨2, "order", "B", 2, some "starts_with", false⟩,
              ⟨3, "order status?", "C", 1, some "exact", false⟩])
        (.str " Order Status? ")
      = some ⟨1, "order status", "A", 2, some "contains", false⟩ ∧
    ∀ r' ∈ [(⟨1, "order status", "A", 2, some "contains", false⟩ : Rule),
            ⟨2, "order", "B", 2, some "starts_with", false⟩,
            ⟨3, "order status?", "C", 1, some "exact", false⟩],
      RuleMatchesMessage toLowerCase r' " Order Status? " →
        ¬ rankLt ⟨1, "order status", "A", 2, some "contains", false⟩ r' :=
  ⟨by decide,
   (findPredefinedResponseWith_top_ranked toLowerCase _ " Order Status? " _ (by decide)
      (by decide)).2.2⟩

/-- C4: whatever the lower-casing function of the runtime, the lookup on a
case-insensitive `exact` rule returns the rule exactly when the lower-cased
message, without the white space at its two ends, is the lower-cased keyword;
and a lookup that returns such a rule from any list implies the same. -/
theorem exact_rule_found_iff (lower : String → String) (r : Rule) (messageText : String)
    (hexact : r.match_type = some "exact") (hcase : r.case_sensitive = false) :
    (findPredefinedResponseWith lower (.ok [r]) (.str messageText) = some r ↔
      TrimsTo (lower messageText) (lower r.keyword)) ∧
    (∀ responses : List Rule,
      findPredefinedResponseWith lower (.ok responses) (.str messageText) = some r →
        TrimsTo (lower messageText) (lower r.keyword)) := by
  have hm : ruleMatchesWith lower (trim (lower messageText)) r = true ↔
      TrimsTo (lower messageText) (lower r.keyword) := by
    rw [trimsTo_iff]
    simp only [ruleMatchesWith, ruleKeywordWith, hexact, hcase, if_true, beq_iff_eq]
    constructor
    · intro h
      exact h.symm
    · intro h
      simpa using h.symm
  refine ⟨(findPredefinedResponseWith_single lower r messageText).trans hm, ?_⟩
  intro responses h
  simp only [findPredefinedResponseWith] at h
  exact hm.mp (scanResponsesWith_some h).2

/-- Instance of C4: the rule "hello" is found for "Hello" and for " Hello ",
and not for "hello there". -/
theorem exact_rule_found_iff_witness :
    findPredefinedResponseWith toLowerCase (.ok [⟨1, "hello", "Hi!", 1, some "exact", false⟩])
        (.str "Hello") = some ⟨1, "hello", "Hi!", 1, some "exact", false⟩ ∧
    findPredefinedResponseWith toLowerCase (.ok [⟨1, "hello", "Hi!", 1, some "exact", false⟩])
        (.str " Hello ") = some ⟨1, "hello", "Hi!", 1, some "exact", false⟩ ∧
    findPredefinedResponseWith toLowerCase (.ok [⟨1, "hello", "Hi!", 1, some "exact", false⟩])
        (.str "hello there") ≠ some ⟨1, "hello", "Hi!", 1, some "exact", false⟩ :=
  ⟨(exact_rule_found_iff toLowerCase ⟨1, "hello", "Hi!", 1, some "exact", false⟩ "Hello"
      rfl rfl).1.mpr ((trimsTo_iff _ _).mpr (by decide)),
   (exact_rule_found_iff toLowerCase ⟨1, "hello", "Hi!", 1, some "exact", false⟩ " Hello "
      rfl rfl).1.mpr ((trimsTo_iff _ _).mpr (by decide)),
   fun h =>
     absurd
       ((trimsTo_iff _ _).mp
         ((exact_rule_found_iff toLowerCase ⟨1, "hello", "Hi!", 1, some "exact", false⟩
           "hello there" rfl rfl).1.mp h))
       (by decide)⟩

/-- C5: whatever the lower-casing function of the runtime, the lookup on a
case-insensitive rule returns the rule, for `starts_with`, exactly when the
lower-cased keyword is a prefix of the lower-cased message without the white
space at its two ends, and for `ends_with` exactly when it is a suffix of
it. -/
theorem affix_rule_found_iff (lower : String → String) (r : Rule) (messageText : String)
    (hcase : r.case_sensitive = false) :
    (r.match_type = some "starts_with" →
      (findPredefinedResponseWith lower (.ok [r]) (.str messageText) = some r ↔
        ∃ core, TrimsTo (lower messageText) core ∧
          (lower r.keyword).data <+: core.data)) ∧
    (r.match_type = some "ends_with" →
      (findPredefinedResponseWith lower (.ok [r]) (.str messageText) = some r ↔
        ∃ core, TrimsTo (lower messageText) core ∧
          (lower r.keyword).data <:+ core.data)) := by
  constructor
  · intro h
    rw [findPredefinedResponseWith_single]
    have hm : ruleMatchesWith lower (trim (lower messageText)) r = true ↔
        (lower r.keyword).data <+: (trim (lower messageText)).data := by
      simp [ruleMatchesWith, ruleKeywordWith, h, hcase, startsWith_iff]
    rw [hm]
    constructor
    · intro hp
      exact ⟨_, trimsTo_trim _, hp⟩
    · rintro ⟨core, hcore, hp⟩
      rw [← trimsTo_unique hcore]
      exact hp
  · intro h
    rw [findPredefinedResponseWith_single]
    have hm : ruleMatchesWith lower (trim (lower messageText)) r = true ↔
        (lower r.keyword).data <:+ (trim (lower messageText)).data := by
      simp [ruleMatchesWith, ruleKeywordWith, h, hcase, endsWith_iff]
    rw [hm]
    constructor
    · intro hp
      exact ⟨_, trimsTo_trim _, hp⟩
    · rintro ⟨core, hcore, hp⟩
      rw [← trimsTo_unique hcore]
      exact hp

/-- Instance of C5: `starts_with` "order" is found for "order #123 status" and
for " Order #123 status"; `ends_with` "help" is found for "i need help" and
for "I need HELP ", and not for "help me". -/
theorem affix_rule_found_iff_witness :
    findPredefinedResponseWith toLowerCase
        (.ok [⟨1, "order", "R", 1, some "starts_with", false⟩]) (.str "order #123 status")
      = some ⟨1, "order", "R", 1, some "starts_with", false⟩ ∧
    findPredefinedResponseWith toLowerCase
        (.ok [⟨1, "order", "R", 1, some "starts_with", false⟩]) (.str " Order #123 status")
      = some ⟨1, "order", "R", 1, some "starts_with", false⟩ ∧
    findPredefinedResponseWith toLowerCase
        (.ok [⟨2, "help", "R", 1, some "ends_with", false⟩]) (.str "i need help")
      = some ⟨2, "help", "R", 1, some "ends_with", false⟩ ∧
    findPredefinedResponseWith toLowerCase
        (.ok [⟨2, "help", "R", 1, some "ends_with", false⟩]) (.str "I need HELP ")
      = some ⟨2, "help", "R", 1, some "ends_with", false⟩ ∧
    findPredefinedResponseWith toLowerCase
        (.ok [⟨2, "help", "R", 1, some "ends_with", false⟩]) (.str "help me")
      ≠ some ⟨2, "help", "R", 1, some "ends_with", false⟩ :=
  ⟨((affix_rule_found_iff toLowerCase ⟨1, "order", "R", 1, some "starts_with", false⟩
        "order #123 status" rfl).1 rfl).mpr
      ⟨"order #123 status", (trimsTo_iff _ _).mpr (by decide), by decide⟩,
   ((affix_rule_found_iff toLowerCase ⟨1, "order", "R", 1, some "starts_with", false⟩
        " Order #123 status" rfl).1 rfl).mpr
      ⟨"order #123 status", (trimsTo_iff _ _).mpr (by decide), by decide⟩,
   ((affix_rule_found_iff toLowerCase ⟨2, "help", "R", 1, some "ends_with", false⟩
        "i need help" rfl).2 rfl).mpr
      ⟨"i need help", (trimsTo_iff _ _).mpr (by decide), by decide⟩,
   ((affix_rule_found_iff toLowerCase ⟨2, "help", "R", 1, some "ends_with", false⟩
        "I need HELP " rfl).2 rfl).mpr
      ⟨"i need help", (trimsTo_iff _ _).mpr (by decide), by decide⟩,
   fun h => by
     obtain ⟨core, hcore, hsuf⟩ :=
       ((affix_rule_found_iff toLowerCase ⟨2, "help", "R", 1, some "ends_with", false⟩
         "help me" rfl).2 rfl).mp h
     rw [trimsTo_unique hcore] at hsuf
     exact absurd hsuf (by decide)⟩

/-- C14: whatever the lower-casing function of the runtime, the lookup on a
rule whose `match_type` is none of "exact", "starts_with", "ends_with" (so
"contains", a missing value or any other string) returns the rule exactly when
its keyword, lower-cased unless the rule is case-sensitive, is a substring of
the lower-cased message without the white space at its two ends. -/
theorem fallback_rule_found_iff (lower : String → String) (r : Rule) (messageText : String)
    (hexact : r.match_type ≠ some "exact")
    (hstarts : r.match_type ≠ some "starts_with")
    (hends : r.match_type ≠ some "ends_with") :
    findPredefinedResponseWith lower (.ok [r]) (.str messageText) = some r ↔
      ∃ core, TrimsTo (lower messageText) core ∧
        (if r.case_sensitive = true then r.keyword else lower r.keyword).data <:+: core.data := by
  rw [findPredefinedResponseWith_single]
  have hm : ruleMatchesWith lower (trim (lower messageText)) r = true ↔
      (if r.case_sensitive = true then r.keyword else lower r.keyword).data <:+:
        (trim (lower messageText)).data := by
    simp [ruleMatchesWith, ruleKeywordWith, hexact, hstarts, hends, includes_iff]
  rw [hm]
  constructor
  · intro hp
    exact ⟨_, trimsTo_trim _, hp⟩
  · rintro ⟨core, hcore, hp⟩
    rw [← trimsTo_unique hcore]
    exact hp

/-- Instance of C14: a rule without `match_type` and a rule of the unknown
type "fuzzy", both with keyword "Prix", are found for " Quel PRIX ? "; a
"contains" rule whose keyword is one blank is not found for "a ", which holds
the blank only before trimming. -/
theorem fallback_rule_found_iff_witness :
    findPredefinedResponseWith toLowerCase (.ok [⟨1, "Prix", "R", 1, none, false⟩])
        (.str " Quel PRIX ? ") = some ⟨1, "Prix", "R", 1, none, false⟩ ∧
    findPredefinedResponseWith toLowerCase (.ok [⟨2, "Prix", "R", 1, some "fuzzy", false⟩])
        (.str " Quel PRIX ? ") = some ⟨2, "Prix", "R", 1, some "fuzzy", false⟩ ∧
    findPredefinedResponseWith toLowerCase (.ok [⟨3, " ", "R", 1, some "contains", false⟩])
        (.str "a ") ≠ some ⟨3, " ", "R", 1, some "contains", false⟩ :=
  ⟨(fallback_rule_found_iff toLowerCase ⟨1, "Prix", "R", 1, none, false⟩ " Quel PRIX ? "
      (by decide) (by decide) (by decide)).mpr
      ⟨"quel prix ?", (trimsTo_iff _ _).mpr (by decide), by decide⟩,
   (fallback_rule_found_iff toLowerCase ⟨2, "Prix", "R", 1, some "fuzzy", false⟩
      " Quel PRIX ? " (by decide) (by decide) (by decide)).mpr
      ⟨"quel prix ?", (trimsTo_iff _ _).mpr (by decide), by decide⟩,
   fun h => by
     obtain ⟨core, hcore, hsub⟩ :=
       (fallback_rule_found_iff toLowerCase ⟨3, " ", "R", 1, some "contains", false⟩ "a "
         (by decide) (by decide) (by decide)).mp h
     rw [trimsTo_unique hcore] at hsub
     exact absurd hsub (by decide)⟩

/-- C22: whatever the lower-casing function of the runtime, on a fetched rule
list `findPredefinedResponse` returns null exactly when no rule of the list
matches the message; on the empty list it returns null for every message, and
`processIncomingMessage` then goes on with `tryAIResponse`, whose effects
follow the rule query. -/
theorem findPredefinedResponseWith_none_iff (lower : String → String)
    (responses : List Rule) (text : String) :
    (findPredefinedResponseWith lower (.ok responses) (.str text) = none ↔
      ∀ r ∈ responses, ¬ RuleMatchesMessage lower r text) ∧
    (∀ messageText : JSVal, findPredefinedResponseWith lower (.ok []) messageText = none) ∧
    (∀ (env : Env) (pageId : String) (messagingData senderId : JSVal) (page : Page)
        (rest : List Page),
      env.rules = .ok [] →
      senderIdOf messagingData = .ok senderId →
      (messageTextOf messagingData).truthy = true →
      (messageIdOf messagingData).truthy = true →
      env.pages = .ok (page :: rest) →
      ∃ tail, (processIncomingMessage env pageId messagingData).effects =
        [Effect.dbSelectPage pageId, Effect.graphGetSenderName senderId page.access_token,
          Effect.dbSelectRules page.user_id pageId] ++
        (tryAIResponse env page.user_id pageId (messageTextOf messagingData)).2 ++ tail) := by
  refine ⟨?_, ?_, ?_⟩
  · simp only [findPredefinedResponseWith]
    rw [scanResponsesWith_none]
    constructor
    · intro h r hr hm
      have := (ruleMatchesMessage_iff lower r text).mp hm
      rw [h r hr] at this
      cases this
    · intro h r hr
      cases hm : ruleMatchesWith lower (trim (lower text)) r with
      | false => rfl
      | true => exact absurd ((ruleMatchesMessage_iff lower r text).mpr hm) (h r hr)
  · intro messageText
    cases messageText <;> simp [findPredefinedResponseWith, scanResponsesWith]
  · intro env pageId messagingData senderId page rest hrules hsender htext hmid hpage
    have hnone : findPredefinedResponse env.rules (messageTextOf messagingData) = none := by
      rw [hrules]
      exact findPredefinedResponse_ok_nil _
    have hproc : processIncomingMessage env pageId messagingData =
        processWithPage env page pageId messagingData senderId (messageIdOf messagingData)
          (messageTextOf messagingData) := by
      simp [processIncomingMessage, hsender, htext, hmid, hpage]
    obtain ⟨tail, ht⟩ := processWithPage_effects_start env page pageId messagingData senderId
      (messageIdOf messagingData) (messageTextOf messagingData)
    refine ⟨tail, ?_⟩
    rw [hproc, ht, resolve_effects_of_none _ _ _ _ hnone]
    simp

/-- Instance of C22: a list whose two rules do not match "hello" gives null,
the same list gives a rule for " BYE now", and on a page without rules the
run reads the AI configs. -/
theorem findPredefinedResponseWith_none_iff_witness :
    (∀ r ∈ [(⟨1, "bye", "Bye!", 2, some "starts_with", false⟩ : Rule),
            ⟨2, "Hello", "Hi!", 1, some "exact", true⟩],
      ¬ RuleMatchesMessage toLowerCase r "hello") ∧
    findPredefinedResponseWith toLowerCase
        (.ok [⟨1, "bye", "Bye!", 2, some "starts_with", false⟩,
              ⟨2, "Hello", "Hi!", 1, some "exact", true⟩])
        (.str " BYE now") ≠ none ∧
    ∃ tail,
      (processIncomingMessage
          { pages := .ok [⟨7, "P1", "tok"⟩]
            senderName := none
            rules := .ok []
            aiConfigs := .ok []
            provider := .ok "unused"
            send := .ok ()
            historyInsert := .ok ()
            elapsed := 5 }
          "P1" (messagingEvent "U1" "M1" "Hi")).effects =
        [Effect.dbSelectPage "P1", Effect.graphGetSenderName (.str "U1") "tok",
          Effect.dbSelectRules 7 "P1"] ++
        [Effect.dbSelectAIConfigs 7 "P1"] ++ tail :=
  ⟨(findPredefinedResponseWith_none_iff toLowerCase
      [⟨1, "bye", "Bye!", 2, some "starts_with", false⟩,
       ⟨2, "Hello", "Hi!", 1, some "exact", true⟩] "hello").1.mp (by decide),
   fun h =>
     (findPredefinedResponseWith_none_iff toLowerCase
        [⟨1, "bye", "Bye!", 2, some "starts_with", false⟩,
         ⟨2, "Hello", "Hi!", 1, some "exact", true⟩] " BYE now").1.mp h
       ⟨1, "bye", "Bye!", 2, some "starts_with", false⟩ (by decide)
       ((ruleMatchesMessage_iff _ _ _).mpr (by decide)),
   (findPredefinedResponseWith_none_iff toLowerCase [] "Hi").2.2
     { pages := .ok [⟨7, "P1", "tok"⟩]
       senderName := none
       rules := .ok []
       aiConfigs := .ok []
       provider := .ok "unused"
       send := .ok ()
       historyInsert := .ok ()
       elapsed := 5 }
     "P1" (messagingEvent "U1" "M1" "Hi") (.str "U1") ⟨7, "P1", "tok"⟩ [] rfl rfl rfl rfl rfl⟩

end FacebookManager

/-! ## The keyword scan of the webhook endpoint, for every lower-casing function -/

namespace Server

/-- C23 fails as stated: for the message "hello there" and an `exact` rule with
keyword "hello", `processMessage` of `server.js` picks the reply of the rule,
while `findPredefinedResponse` finds no rule. -/
theorem webhook_scan_ignores_match_type :
    keywordScanWith toLowerCase (.str "hello there")
        [⟨1, "hello", "Hi!", 1, some "exact", false⟩]
      = .ok (some "Hi!") ∧
    FacebookManager.findPredefinedResponseWith toLowerCase
        (.ok [⟨1, "hello", "Hi!", 1, some "exact", false⟩]) (.str "hello there")
      = none :=
  ⟨rfl, rfl⟩

theorem firstKeywordReplyWith_eq_scan (lower : String → String) (text : String)
    (responses : List Rule)
    (hrules : ∀ r ∈ responses, r.case_sensitive = false ∧ r.match_type ≠ some "exact" ∧
      r.match_type ≠ some "starts_with" ∧ r.match_type ≠ some "ends_with") :
    firstKeywordReplyWith lower text responses =
      (FacebookManager.scanResponsesWith lower (lower text) responses).map
        (fun r => r.response) := by
  induction responses with
  | nil => rfl
  | cons a rest ih =>
    obtain ⟨h1, h2, h3, h4⟩ := hrules a (List.mem_cons_self _ _)
    have hm : FacebookManager.ruleMatchesWith lower (lower text) a =
        includes (lower text) (lower a.keyword) := by
      simp [FacebookManager.ruleMatchesWith, FacebookManager.ruleKeywordWith, h1, h2, h3, h4]
    unfold firstKeywordReplyWith FacebookManager.scanResponsesWith
    rw [hm]
    by_cases hi : includes (lower text) (lower a.keyword) = true
    · simp [hi]
    · simp only [hi]
      exact ih (fun r hr => hrules r (List.mem_cons_of_mem _ hr))

/-- C23, amended: whatever the lower-casing function of the runtime,
`processMessage` of `server.js` picks the reply of the first rule of its list
whose lower-cased keyword occurs in the lower-cased message.  On a list of
case-insensitive rules of type "contains" (or of no known type), and for a
message whose lower-cased form neither starts nor ends with white space, that
is the reply of the rule that `findPredefinedResponse` picks on the same
list. -/
theorem webhook_scan_agrees_on_contains_rules (lower : String → String) (text : String)
    (responses : List Rule)
    (hrules : ∀ r ∈ responses, r.case_sensitive = false ∧ r.match_type ≠ some "exact" ∧
      r.match_type ≠ some "starts_with" ∧ r.match_type ≠ some "ends_with")
    (htrim : FacebookManager.TrimsTo (lower text) (lower text)) :
    keywordScanWith lower (.str text) responses =
      .ok ((FacebookManager.findPredefinedResponseWith lower (.ok responses) (.str text)).map
        (fun r => r.response)) := by
  have h := firstKeywordReplyWith_eq_scan lower text responses hrules
  have ht : trim (lower text) = lower text := (FacebookManager.trimsTo_unique htrim).symm
  simp only [FacebookManager.findPredefinedResponseWith, ht]
  cases responses with
  | nil => rfl
  | cons a rest =>
    simp only [keywordScanWith]
    rw [h]

/-- Instance of C23: two "contains" rules and the message "Quel PRIX ?"; both
functions pick the reply "B". -/
theorem webhook_scan_agrees_on_contains_rules_witness :
    keywordScanWith toLowerCase (.str "Quel PRIX ?")
        [⟨1, "tarif", "A", 2, some "contains", false⟩, ⟨2, "Prix", "B", 1, none, false⟩]
      = .ok (some "B") :=
  webhook_scan_agrees_on_contains_rules toLowerCase "Quel PRIX ?"
    [⟨1, "tarif", "A", 2, some "contains", false⟩, ⟨2, "Prix", "B", 1, none, false⟩]
    (by decide) ((FacebookManager.trimsTo_iff _ _).mpr (by decide))

end Server
